import Mathlib

/-!
Verification of the content-chunking and resilient-assembly pipeline of the
presentation-generator backend.  The development is a shallow embedding of

  * `presentation_app/content_chunker.py`   (class `ContentChunker`),
  * `presentation_app/chunk_json_compiler.py` (class `ChunkJSONCompiler`),
  * `presentation_app/presentation_generator.py` (`repair_json_string`,
    `generate_fallback_slides`, class `GroqPresentationGenerator`),

with text modelled as `List Char` and Python dictionaries modelled as
association lists over a small Python-value type `JVal`.

Python's float expressions `int(n * 1.3)`, `int(m * 0.85)`, `int(m / 1.3 * 0.9)`
and `int(1200 * 0.8)` are modelled by the exact rational truncations
`n * 13 / 10`, `m * 85 / 100`, `m * 9 / 13` and `1200 * 8 / 10`; at every
argument these take in the theorems below the IEEE-double value and the exact
value agree (the one systematic divergence, `int(1200 * 0.85) = 1019` under
doubles versus `1020` exactly, is noted where it occurs and is on a code path
not exercised by any theorem in this file).
-/

set_option maxRecDepth 4000

/-! ## Python text primitives -/

/-- ASCII whitespace as recognised by Python's `str.split()` / `str.strip()`. -/
def pyWs (c : Char) : Bool :=
  c == ' ' || c == '\t' || c == '\n' || c == '\r' || c == '\x0b' || c == '\x0c'

/-- Python `str.strip()`: remove leading and trailing whitespace. -/
def pyStrip (l : List Char) : List Char :=
  ((l.dropWhile pyWs).reverse.dropWhile pyWs).reverse

/-- Fuelled worker for `pySplitWs`; the fuel is an upper bound on the input
length, so it never runs out on the wrapper's call. -/
def pySplitWsF : Nat → List Char → List (List Char)
  | 0, _ => []
  | _ + 1, [] => []
  | fuel + 1, c :: cs =>
    if pyWs c then pySplitWsF fuel cs
    else ((c :: cs).takeWhile (fun d => !pyWs d)) ::
      pySplitWsF fuel ((c :: cs).dropWhile (fun d => !pyWs d))

/-- Python `str.split()` with no argument: split on whitespace runs, dropping
empty pieces. -/
def pySplitWs (l : List Char) : List (List Char) :=
  pySplitWsF l.length l

/-- Python `str.split(sep)` for a single-character separator: keeps empty
pieces. -/
def splitOnChar (sep : Char) : List Char → List (List Char)
  | [] => [[]]
  | c :: cs =>
    if c = sep then [] :: splitOnChar sep cs
    else match splitOnChar sep cs with
      | [] => [[c]]
      | p :: ps => (c :: p) :: ps

/-- Python `str.split("\n\n")`: split on each non-overlapping occurrence of a
blank line separator, left to right, keeping empty pieces. -/
def splitNN : List Char → List (List Char)
  | '\n' :: '\n' :: rest => [] :: splitNN rest
  | c :: cs =>
    match splitNN cs with
    | [] => [[c]]
    | p :: ps => (c :: p) :: ps
  | [] => [[]]

/-- `sep.join(pieces)` (Python `str.join`). -/
def joinWith (sep : List Char) : List (List Char) → List Char
  | [] => []
  | [p] => p
  | p :: ps => p ++ sep ++ joinWith sep ps

/-- `" ".join(pieces)`. -/
def joinSpace (ps : List (List Char)) : List Char :=
  joinWith [' '] ps

/-- Python `str.replace(pat, rep)`: all non-overlapping occurrences, scanned
left to right (fuelled; fuel bounds the input length). -/
def replaceAllF (pat rep : List Char) : Nat → List Char → List Char
  | 0, l => l
  | _ + 1, [] => []
  | fuel + 1, c :: cs =>
    if pat ≠ [] ∧ pat.isPrefixOf (c :: cs) then
      rep ++ replaceAllF pat rep fuel ((c :: cs).drop pat.length)
    else
      c :: replaceAllF pat rep fuel cs

/-- Python `str.replace(pat, rep)` (for non-empty `pat`). -/
def replaceAll (pat rep l : List Char) : List Char :=
  replaceAllF pat rep l.length l

/-- The characters of a text without its whitespace: the claims compare
chunkings to the source "whitespace-insensitively". -/
def nonWs (l : List Char) : List Char :=
  l.filter (fun c => !pyWs c)

/-- Concatenation of a list of chunks, ignoring whitespace. -/
def nonWsConcat (chunks : List (List Char)) : List Char :=
  (chunks.map nonWs).flatten

/-! ## `ContentChunker` (content_chunker.py)

Configuration constants of the class: `TOKENS_PER_WORD = 1.3`,
`SAFE_TOKEN_LIMIT = 1500`, `EMERGENCY_TOKEN_LIMIT = 1200`,
`AUTO_CHUNK_THRESHOLD = 300`, `MIN_WORDS_PER_CHUNK = 50`.  The instance
parameter `max_tokens_per_chunk` (constructor argument, default
`SAFE_TOKEN_LIMIT`) is threaded explicitly through the functions below. -/

/-- `ContentChunker.estimate_tokens`: `int(len(text.split()) * 1.3)`. -/
def estimate_tokens (text : List Char) : Nat :=
  (pySplitWs text).length * 13 / 10

/-- `ContentChunker.should_auto_chunk`: word count at least 300. -/
def should_auto_chunk (content : List Char) : Bool :=
  300 ≤ (pySplitWs content).length

/-- Worker for `chunk_by_words`: the loop over `words` with accumulator
`current`.  The source also tracks `current_tokens` (`len(word) / 4` per
word), but that variable never influences control flow or output, so it is
not carried here. -/
def wordsGo (target_words : Nat) : List (List Char) → List (List Char) → List (List Char)
  | [], current => if current ≠ [] then [joinSpace current] else []
  | w :: ws, current =>
    if target_words ≤ current.length then
      joinSpace current :: wordsGo target_words ws [w]
    else
      wordsGo target_words ws (current ++ [w])

/-- `ContentChunker._chunk_by_words(content, max_tokens)`: last-resort
word-level chunking.  `target_words = int(max_tokens / 1.3 * 0.9)` is the
exact `max_tokens * 9 / 13` (the double and the exact value agree at every
`max_tokens` reached in this file). -/
def chunk_by_words (max_tokens : Nat) (content : List Char) : List (List Char) :=
  let words := pySplitWs content
  if words = [] then [content]
  else wordsGo (max_tokens * 9 / 13) words []

/-- `ContentChunker._split_sentences`, first step: the abbreviation
replacements `replace('Mr.', 'Mr').replace('Mrs.', 'Mrs').replace('Dr.', 'Dr')`.
Note these delete the abbreviation periods from the text itself. -/
def stripAbbrevPeriods (l : List Char) : List Char :=
  replaceAll "Dr.".data "Dr".data
    (replaceAll "Mrs.".data "Mrs".data
      (replaceAll "Mr.".data "Mr".data l))

/-- Fuelled worker for the regex split `re.split(r'(?<=[.!?])\s+', text)`:
cut after each `.`/`!`/`?` that is followed by whitespace, consuming the
whitespace run. -/
def sentRegexSplitF : Nat → List Char → List Char → List (List Char)
  | 0, cur, l => [cur ++ l]
  | _ + 1, cur, [] => [cur]
  | fuel + 1, cur, c :: cs =>
    if (c = '.' ∨ c = '!' ∨ c = '?') ∧ (cs.takeWhile pyWs) ≠ [] then
      (cur ++ [c]) :: sentRegexSplitF fuel [] (cs.dropWhile pyWs)
    else
      sentRegexSplitF fuel (cur ++ [c]) cs

/-- `ContentChunker._split_sentences`: abbreviation stripping, the regex
split, then `strip` and dropping of blank pieces. -/
def split_sentences (text : List Char) : List (List Char) :=
  let t := stripAbbrevPeriods text
  ((sentRegexSplitF t.length [] t).map pyStrip).filter (· ≠ [])

/-- Worker for `chunk_by_sentences`: the loop over `sentences` with
accumulator `current` and its running token estimate. -/
def sentGo (max_tokens : Nat) :
    List (List Char) → List (List Char) → Nat → List (List Char)
  | [], current, _ => if current ≠ [] then [joinSpace current] else []
  | s :: ss, current, current_tokens =>
    let sent_tokens := estimate_tokens s
    if max_tokens < sent_tokens then
      (if current ≠ [] then [joinSpace current] else []) ++
        chunk_by_words max_tokens s ++ sentGo max_tokens ss [] 0
    else if current_tokens + sent_tokens ≤ max_tokens then
      sentGo max_tokens ss (current ++ [s]) (current_tokens + sent_tokens)
    else
      (if current ≠ [] then [joinSpace current] else []) ++
        sentGo max_tokens ss [s] sent_tokens

/-- `ContentChunker._chunk_by_sentences(content, max_tokens)`. -/
def chunk_by_sentences (max_tokens : Nat) (content : List Char) : List (List Char) :=
  let sentences := split_sentences content
  if sentences = [] then chunk_by_words max_tokens content
  else sentGo max_tokens sentences [] 0

/-- Worker for `chunk_by_paragraphs`: the loop over `paragraphs` with
accumulator `current_chunk` (a list of paragraphs joined by blank lines on
flush) and its running token estimate. -/
def paraGo (safe_limit : Nat) :
    List (List Char) → List (List Char) → Nat → List (List Char)
  | [], current, _ => if current ≠ [] then [joinWith "\n\n".data current] else []
  | p :: ps, current, current_tokens =>
    let para_tokens := estimate_tokens p
    if safe_limit < para_tokens then
      (if current ≠ [] then [joinWith "\n\n".data current] else []) ++
        chunk_by_sentences safe_limit p ++ paraGo safe_limit ps [] 0
    else if current_tokens + para_tokens ≤ safe_limit then
      paraGo safe_limit ps (current ++ [p]) (current_tokens + para_tokens)
    else
      (if current ≠ [] then [joinWith "\n\n".data current] else []) ++
        paraGo safe_limit ps [p] para_tokens

/-- `ContentChunker._chunk_by_paragraphs`: `safe_limit` is
`int(max_tokens_per_chunk * 0.85)` (exact `* 85 / 100`; the double and the
exact value agree for the budgets 4 and 10 used below — at the default 1500
the double gives 1274). -/
def chunk_by_paragraphs (max_tokens_per_chunk : Nat) (content : List Char) :
    List (List Char) :=
  let safe_limit := max_tokens_per_chunk * 85 / 100
  let paragraphs := (splitNN content).filter (fun p => pyStrip p ≠ [])
  if paragraphs = [] then chunk_by_sentences safe_limit content
  else paraGo safe_limit paragraphs [] 0

/-- `ContentChunker._validate_and_repair_chunks`.  The emergency re-split
limit is `int(EMERGENCY_TOKEN_LIMIT * 0.85)`, which under IEEE doubles is
`1019` (exactly it would be 1020); the double value is used. -/
def validate_and_repair_chunks (max_tokens_per_chunk : Nat)
    (chunks : List (List Char)) : List (List Char) :=
  chunks.flatMap (fun chunk =>
    if estimate_tokens chunk ≤ max_tokens_per_chunk then [chunk]
    else
      (chunk_by_sentences 1019 chunk).flatMap (fun sub_chunk =>
        if max_tokens_per_chunk < estimate_tokens sub_chunk then
          chunk_by_words 1019 sub_chunk
        else [sub_chunk]))

/-- Merge a chunk into the last element of the accumulator with a single
space, as `safe_chunks[-1] = safe_chunks[-1] + ' ' + chunk` does. -/
def mergeIntoLast (acc : List (List Char)) (chunk : List Char) : List (List Char) :=
  match acc.reverse with
  | [] => acc
  | last :: rest => ((last ++ ' ' :: chunk) :: rest).reverse

/-- Worker for `ensure_chunk_safety`: the loop with accumulator
`safe_chunks`.  `int(EMERGENCY_TOKEN_LIMIT * 0.8) = 960` exactly and under
doubles. -/
def ensureGo (max_tokens_per_chunk : Nat) :
    List (List Char) → List (List Char) → List (List Char)
  | [], safe_chunks => safe_chunks
  | chunk :: rest, safe_chunks =>
    let tokens := estimate_tokens chunk
    let words := (pySplitWs chunk).length
    if max_tokens_per_chunk < tokens then
      ensureGo max_tokens_per_chunk rest
        (safe_chunks ++ chunk_by_words (1200 * 8 / 10) chunk)
    else if words < 50 ∧ safe_chunks ≠ [] then
      ensureGo max_tokens_per_chunk rest (mergeIntoLast safe_chunks chunk)
    else
      ensureGo max_tokens_per_chunk rest (safe_chunks ++ [chunk])

/-- `ContentChunker._ensure_chunk_safety`: final validation pass; chunks under
`MIN_WORDS_PER_CHUNK = 50` words are merged into the previous chunk (except
the first). -/
def ensure_chunk_safety (max_tokens_per_chunk : Nat)
    (chunks : List (List Char)) : List (List Char) :=
  ensureGo max_tokens_per_chunk chunks []

/-- `ContentChunker.chunk_content`: the three-stage cascade.  The
`max_tokens_per_chunk` argument is the constructor's configured budget. -/
def chunk_content (max_tokens_per_chunk : Nat) (content : List Char) :
    List (List Char) :=
  if estimate_tokens content ≤ max_tokens_per_chunk then [content]
  else
    ensure_chunk_safety max_tokens_per_chunk
      (validate_and_repair_chunks max_tokens_per_chunk
        (chunk_by_paragraphs max_tokens_per_chunk content))

/-! ## Claims C1 and C2 -/

/-- The C1 failing input: a text containing the abbreviation `Mr.`, chunked
with a configured budget of 4 tokens. -/
def c1Input : List Char := "Mr. A b c.".data

/-- C1: the claim says concatenating the chunks of `chunk_content`
reconstructs the source whitespace-insensitively, with no non-whitespace
character dropped or altered.  The code drops the period of `Mr.` (and
`Mrs.`, `Dr.`): `_split_sentences` rewrites `Mr.` to `Mr` in the text itself,
so `ContentChunker(4).chunk_content("Mr. A b c.")` returns `["Mr A b c."]`
and the non-whitespace concatenation differs from the source.  This
contradicts the function's own guarantee of "100% data preservation / no
data loss". -/
theorem C1_chunk_content_drops_abbrev_period :
    chunk_content 4 c1Input = ["Mr A b c.".data] ∧
    nonWsConcat (chunk_content 4 c1Input) ≠ nonWs c1Input := by
  decide

/-- The C2 failing input: five blank-line-separated paragraphs of six words
each, chunked with a configured budget of 10 tokens. -/
def c2Input : List Char :=
  "a b c d e f\n\na b c d e f\n\na b c d e f\n\na b c d e f\n\na b c d e f".data

/-- C2: the claim says every chunk's estimated size stays at most the
configured budget times (1 + tolerance), and in particular that the final
safety pass's merging of under-minimum chunks never pushes the merged chunk
above the bound.  The merge step never re-checks the bound: on `c2Input` with
budget 10 the paragraph stage produces five 6-word chunks (7 estimated tokens
each), and `_ensure_chunk_safety` then merges all of them into one 30-word
chunk of 39 estimated tokens — far above the budget even with a 15%
tolerance (`10 * 115 / 100 = 11`), contradicting the chunker's own
"all chunks under token limit" guarantee. -/
theorem C2_ensure_chunk_safety_merge_breaks_budget :
    (chunk_content 10 c2Input).map estimate_tokens = [39] ∧
    10 * 115 / 100 < 39 := by
  decide

/-! ## Python values and dictionaries

Slide records flow through the pipeline as Python dictionaries with
arbitrary JSON-like values; `JVal` models those values and `PyDict` an
insertion-ordered dictionary. -/

/-- A Python/JSON value as handled by the pipeline. -/
inductive JVal where
  | jnull
  | jbool (b : Bool)
  | jint (n : Int)
  | jstr (s : String)
  | jlist (l : List JVal)
  | jdict (d : List (String × JVal))

/-- A Python dictionary with string keys, in insertion order. -/
abbrev PyDict := List (String × JVal)

mutual
/-- Boolean structural equality on `JVal` (towards decidable equality). -/
def jeq : JVal → JVal → Bool
  | .jnull, .jnull => true
  | .jbool a, .jbool b => a == b
  | .jint a, .jint b => a == b
  | .jstr a, .jstr b => a == b
  | .jlist a, .jlist b => jeqList a b
  | .jdict a, .jdict b => jeqDict a b
  | _, _ => false

/-- Elementwise `jeq` on value lists. -/
def jeqList : List JVal → List JVal → Bool
  | [], [] => true
  | a :: as, b :: bs => jeq a b && jeqList as bs
  | _, _ => false

/-- Elementwise `jeq` on dictionaries. -/
def jeqDict : List (String × JVal) → List (String × JVal) → Bool
  | [], [] => true
  | (k1, v1) :: as, (k2, v2) :: bs => k1 == k2 && jeq v1 v2 && jeqDict as bs
  | _, _ => false
end

mutual
theorem jeq_iff : ∀ a b : JVal, jeq a b = true ↔ a = b
  | .jnull, b => by cases b <;> simp [jeq]
  | .jbool x, b => by cases b <;> simp [jeq]
  | .jint x, b => by cases b <;> simp [jeq]
  | .jstr x, b => by cases b <;> simp [jeq]
  | .jlist l, b => by
    cases b <;> simp [jeq]
    case jlist l2 => exact jeqList_iff l l2
  | .jdict d, b => by
    cases b <;> simp [jeq]
    case jdict d2 => exact jeqDict_iff d d2

theorem jeqList_iff : ∀ l1 l2 : List JVal, jeqList l1 l2 = true ↔ l1 = l2
  | [], l2 => by cases l2 <;> simp [jeqList]
  | a :: as, l2 => by
    cases l2 with
    | nil => simp [jeqList]
    | cons b bs =>
      simp only [jeqList, Bool.and_eq_true, List.cons.injEq]
      rw [jeq_iff a b, jeqList_iff as bs]

theorem jeqDict_iff : ∀ d1 d2 : List (String × JVal), jeqDict d1 d2 = true ↔ d1 = d2
  | [], d2 => by cases d2 <;> simp [jeqDict]
  | (k1, v1) :: as, d2 => by
    cases d2 with
    | nil => simp [jeqDict]
    | cons b bs =>
      obtain ⟨k2, v2⟩ := b
      simp only [jeqDict, Bool.and_eq_true, List.cons.injEq, Prod.mk.injEq,
        beq_iff_eq]
      rw [jeq_iff v1 v2, jeqDict_iff as bs, and_assoc]
end

instance : DecidableEq JVal := fun a b => decidable_of_iff _ (jeq_iff a b)

/-- Python truthiness (`bool(v)`). -/
def truthy : JVal → Bool
  | .jnull => false
  | .jbool b => b
  | .jint n => n != 0
  | .jstr s => s != ""
  | .jlist l => !l.isEmpty
  | .jdict d => !d.isEmpty

/-- `d.get(k)` (Python `dict.get`, `None`-free form: `none` means the key is
missing). -/
def dget (d : PyDict) (k : String) : Option JVal :=
  match d.find? (fun p => p.1 == k) with
  | some p => some p.2
  | none => none

/-- `d[k] = v`: replace the value of an existing key in place, or append a
new key (Python dictionaries preserve insertion order). -/
def dset (d : PyDict) (k : String) (v : JVal) : PyDict :=
  if d.any (fun p => p.1 == k) then
    d.map (fun p => if p.1 == k then (k, v) else p)
  else d ++ [(k, v)]

mutual
/-- Python `repr(v)` for the values above.  String escaping inside `repr` of
a string is not modelled (no input in this file needs it). -/
def pyRepr : JVal → String
  | .jnull => "None"
  | .jbool true => "True"
  | .jbool false => "False"
  | .jint n => toString n
  | .jstr s => "\x27" ++ s ++ "\x27"
  | .jlist l => "[" ++ pyReprList l ++ "]"
  | .jdict d => "\x7b" ++ pyReprDict d ++ "\x7d"

/-- Comma-separated `repr`s of list elements. -/
def pyReprList : List JVal → String
  | [] => ""
  | [x] => pyRepr x
  | x :: y :: xs => pyRepr x ++ ", " ++ pyReprList (y :: xs)

/-- Comma-separated `repr`s of dictionary entries. -/
def pyReprDict : List (String × JVal) → String
  | [] => ""
  | [(k, v)] => "\x27" ++ k ++ "\x27: " ++ pyRepr v
  | (k, v) :: y :: xs => "\x27" ++ k ++ "\x27: " ++ pyRepr v ++ ", " ++ pyReprDict (y :: xs)
end

/-- Python `str(v)`: the string itself for strings, `repr`-style rendering
otherwise. -/
def pyStr : JVal → String
  | .jstr s => s
  | v => pyRepr v

/-- Python `len(v)`: defined for strings, lists and dictionaries; a
`TypeError` otherwise. -/
def pyLen : JVal → Except String Nat
  | .jstr s => .ok s.length
  | .jlist l => .ok l.length
  | .jdict d => .ok d.length
  | _ => .error "TypeError: object has no len"

/-- Python `str.lower()` (ASCII; all inputs in this file are ASCII). -/
def pyLower (s : String) : String :=
  ⟨s.data.map Char.toLower⟩

/-! ## `GroqPresentationGenerator._generate_fallback_slides` (claim C6) -/

/-- The sentence/paragraph extraction at the head of
`_generate_fallback_slides`: split on `'.'` keeping pieces whose stripped
length exceeds 20; if none, split on newlines the same way. -/
def fbUnits (chunk_text : List Char) : List (List Char) :=
  let sentences :=
    ((splitOnChar '.' chunk_text).map pyStrip).filter (fun s => 20 < s.length)
  if sentences ≠ [] then sentences
  else ((splitOnChar '\n' chunk_text).map pyStrip).filter (fun s => 20 < s.length)

/-- One fallback slide record, as built in `_generate_fallback_slides`. -/
def mkFallbackSlide (sec : Nat) (bullets : List (List Char)) : PyDict :=
  [("slide_type", .jstr "content"),
   ("title", .jstr ("Key Points - Section " ++ toString sec)),
   ("subtitle", .jstr ""),
   ("bullets", .jlist (bullets.map (fun b => .jstr ⟨b⟩))),
   ("speaker_notes", .jstr ""),
   ("visuals", .jdict [("icons", .jlist []), ("symbols", .jlist [.jstr "▸"])])]

/-- The grouping loop `for i in range(0, len(sentences), 5)` of
`_generate_fallback_slides`; `g` is the group ordinal `i // 5`.  The branch
re-taking six sentences when a group is short is kept from the source even
though its guard (`len < 4` and `i + 5 < len(sentences)`) can never hold.
The fuel is an upper bound on the number of remaining units. -/
def fbGroupsGoF : Nat → List (List Char) → Nat → List PyDict
  | 0, _, _ => []
  | _ + 1, [], _ => []
  | fuel + 1, units, g =>
    let slide_bullets := units.take 5
    let slide_bullets :=
      if slide_bullets.length < 4 ∧ 5 < units.length then units.take 6
      else slide_bullets
    (if 4 ≤ slide_bullets.length then [mkFallbackSlide (g + 1) slide_bullets]
     else []) ++ fbGroupsGoF fuel (units.drop 5) (g + 1)

/-- `GroqPresentationGenerator._generate_fallback_slides(chunk_text, idx)`:
degraded per-segment slide extraction (the `chunk_idx` argument of the
source is used only in log output; the body is exception-free, so its
enclosing `try/except` never triggers). -/
def generate_fallback_slides_for_chunk (chunk_text : List Char) : List PyDict :=
  let units := fbUnits chunk_text
  fbGroupsGoF units.length units 0

/-- C6 counterexample: `"Hello world."` is non-empty, but the fallback
extraction finds no sentence or line longer than 20 characters and returns
an empty slide list, so a segment whose generation attempts all fail
contributes no slides — the claim's "never yields an empty slide list for
non-empty input" is false. -/
theorem C6_fallback_can_be_empty_on_nonempty_input :
    "Hello world.".data ≠ [] ∧
    generate_fallback_slides_for_chunk "Hello world.".data = [] := by
  decide

/-- C6 (amended): the fallback extraction contributes at least one slide
exactly when the segment text yields at least four extractable units
(dot-separated sentences, else newline-separated lines, of stripped length
over 20); here the guarantee direction: four units suffice. -/
theorem C6_fallback_nonempty_of_four_units (chunk_text : List Char)
    (h : 4 ≤ (fbUnits chunk_text).length) :
    generate_fallback_slides_for_chunk chunk_text ≠ [] := by
  show fbGroupsGoF (fbUnits chunk_text).length (fbUnits chunk_text) 0 ≠ []
  rcases hu : fbUnits chunk_text with _ | ⟨u, us⟩
  · rw [hu] at h; simp at h
  · rw [hu] at h
    simp only [List.length_cons] at h
    show fbGroupsGoF (us.length + 1) (u :: us) 0 ≠ []
    simp only [fbGroupsGoF]
    have hlen : ∀ sb : List (List Char), 4 ≤ sb.length →
        (if 4 ≤ sb.length then [mkFallbackSlide (0 + 1) sb] else []) ++
          fbGroupsGoF us.length ((u :: us).drop 5) (0 + 1) ≠ [] := by
      intro sb hsb
      rw [if_pos hsb]
      simp
    apply hlen
    split <;> (simp only [List.length_take, List.length_cons]; omega)

/-- C6 witness: a concrete four-sentence segment text for which the fallback
yields at least one slide. -/
theorem C6_fallback_nonempty_witness :
    generate_fallback_slides_for_chunk
      ("This is the first long sentence here. This is the second long sentence. " ++
       "This is the third long sentence. This is the fourth long sentence.").data ≠ [] :=
  C6_fallback_nonempty_of_four_units _ (by decide)

/-! ## Dictionary lemmas -/

theorem find_map_replace (d : PyDict) (k : String) (v : JVal)
    (h : d.any (fun p => p.1 == k) = true) :
    (d.map (fun p => if p.1 == k then (k, v) else p)).find? (fun p => p.1 == k)
      = some (k, v) := by
  induction d with
  | nil => simp at h
  | cons p ps ih =>
    simp only [List.map_cons]
    by_cases hp : (p.1 == k) = true
    · rw [if_pos hp]
      simp [List.find?_cons]
    · rw [if_neg hp]
      have h' : (ps.any fun p => p.1 == k) = true := by
        simp only [List.any_cons, Bool.or_eq_true] at h
        rcases h with h | h
        · exact absurd h hp
        · exact h
      simp only [Bool.not_eq_true] at hp
      simpa [List.find?_cons, hp] using ih h'

theorem find_append_single (d : PyDict) (k : String) (v : JVal)
    (h : d.any (fun p => p.1 == k) = false) :
    (d ++ [(k, v)]).find? (fun p => p.1 == k) = some (k, v) := by
  induction d with
  | nil => simp [List.find?_cons]
  | cons p ps ih =>
    simp only [List.any_cons, Bool.or_eq_false_iff] at h
    rw [List.cons_append]
    simpa [List.find?_cons, h.1] using ih h.2

/-- Reading back the key just written by `dset`. -/
theorem dget_dset_self (d : PyDict) (k : String) (v : JVal) :
    dget (dset d k v) k = some v := by
  unfold dget dset
  by_cases h : d.any (fun p => p.1 == k) = true
  · rw [if_pos h, find_map_replace d k v h]
  · rw [if_neg h, find_append_single d k v (by rwa [Bool.not_eq_true] at h)]

theorem find_map_replace_ne (d : PyDict) (k k' : String) (v : JVal)
    (h : k ≠ k') :
    (d.map (fun p => if p.1 == k then (k, v) else p)).find? (fun p => p.1 == k')
      = d.find? (fun p => p.1 == k') := by
  induction d with
  | nil => rfl
  | cons p ps ih =>
    simp only [List.map_cons]
    by_cases hp : (p.1 == k) = true
    · rw [if_pos hp]
      have hpk : p.1 = k := by simpa using hp
      have e1 : (k == k') = false := by simp [h]
      have e2 : (p.1 == k') = false := by simp [hpk, h]
      rw [List.find?_cons, List.find?_cons]
      simp only [e1, e2]
      exact ih
    · rw [if_neg hp]
      by_cases hp' : (p.1 == k') = true
      · rw [List.find?_cons, List.find?_cons]
        simp only [hp']
      · have e4 : (p.1 == k') = false := by simpa using hp'
        rw [List.find?_cons, List.find?_cons]
        simp only [e4]
        exact ih

theorem find_append_single_ne (d : PyDict) (k k' : String) (v : JVal)
    (h : k ≠ k') :
    (d ++ [(k, v)]).find? (fun p => p.1 == k')
      = d.find? (fun p => p.1 == k') := by
  induction d with
  | nil =>
    have e1 : (k == k') = false := by simp [h]
    rw [List.nil_append, List.find?_cons]
    simp only [e1]
  | cons p ps ih =>
    by_cases hp : (p.1 == k') = true
    · rw [List.cons_append, List.find?_cons, List.find?_cons]
      simp only [hp]
    · have e3 : (p.1 == k') = false := by simpa using hp
      rw [List.cons_append, List.find?_cons, List.find?_cons]
      simp only [e3]
      exact ih

/-- `dset` leaves every other key unchanged. -/
theorem dget_dset_ne (d : PyDict) (k k' : String) (v : JVal) (h : k ≠ k') :
    dget (dset d k v) k' = dget d k' := by
  unfold dget dset
  by_cases hany : d.any (fun p => p.1 == k) = true
  · rw [if_pos hany, find_map_replace_ne d k k' v h]
  · rw [if_neg hany, find_append_single_ne d k k' v h]

/-! ## `ChunkJSONCompiler` (chunk_json_compiler.py) -/

/-- The compiler's constructor data: topic, audience, tone. -/
structure CompilerCfg where
  topic : String
  target_audience : String
  tone : String

/-- `bullet.get("text", str(bullet)) if isinstance(bullet, dict) else str(bullet)`:
the per-bullet normalisation inside `_normalize_slide`. -/
def normBulletItem (b : JVal) : JVal :=
  match b with
  | .jdict bd => (dget bd "text").getD (.jstr (pyStr b))
  | _ => .jstr (pyStr b)

/-- `ChunkJSONCompiler._normalize_slide(slide, slide_number, chunk_index)`
(the `chunk_index` parameter of the source is unused by the body).  The
result is a `TypeError` exactly when Python would raise while indexing
`bullets[0]` on a truthy non-list, non-string bullets value. -/
def normalize_slide (slide : PyDict) (slide_number : Int) : Except String PyDict :=
  let bullets0 := (dget slide "bullets").getD .jnull
  let bullets1 := if truthy bullets0 then bullets0
                  else (dget slide "slide_bullets").getD (.jlist [])
  let visuals0 := (dget slide "visuals").getD .jnull
  let visuals1 := if truthy visuals0 then visuals0
                  else (dget slide "slide_visuals").getD (.jdict [])
  let normalized : PyDict :=
    [("slide_number", .jint slide_number),
     ("slide_type", (dget slide "slide_type").getD (.jstr "content")),
     ("title", (dget slide "title").getD (.jstr "")),
     ("subtitle", (dget slide "subtitle").getD (.jstr "")),
     ("bullets", bullets1),
     ("speaker_notes", (dget slide "speaker_notes").getD (.jstr "")),
     ("visuals", visuals1)]
  let step2 : Except String PyDict :=
    if truthy bullets1 then
      match bullets1 with
      | .jlist l =>
        match l with
        | (.jdict _) :: _ => .ok (dset normalized "bullets" (.jlist (l.map normBulletItem)))
        | _ => .ok normalized
      | .jstr _ => .ok normalized
      | _ => .error "TypeError: bullets value is not subscriptable"
    else .ok normalized
  match step2 with
  | .error e => .error e
  | .ok normalized2 =>
    let vis := (dget normalized2 "visuals").getD .jnull
    let visD : PyDict := match vis with | .jdict vd => vd | _ => []
    let visD1 := if truthy ((dget visD "icons").getD .jnull) then visD
                 else dset visD "icons" (.jlist [])
    let visD2 := if truthy ((dget visD1 "symbols").getD .jnull) then visD1
                 else dset visD1 "symbols" (.jlist [])
    .ok (dset normalized2 "visuals" (.jdict visD2))

/-- The inner loop of `compile_chunk_slides`: normalise the slides of one
chunk, threading the running `slide_number`. -/
def compileInner : List PyDict → Int → Except String (List PyDict × Int)
  | [], n => .ok ([], n)
  | s :: ss, n =>
    match normalize_slide s n with
    | .error e => .error e
    | .ok ns =>
      match compileInner ss (n + 1) with
      | .error e => .error e
      | .ok (rest, n2) => .ok (ns :: rest, n2)

/-- The outer loop of `compile_chunk_slides` over `chunk_slides_list` (the
source also counts `chunk_index`, which `_normalize_slide` ignores). -/
def compileChunks : List (List PyDict) → Int → Except String (List PyDict × Int)
  | [], n => .ok ([], n)
  | c :: cs, n =>
    match compileInner c n with
    | .error e => .error e
    | .ok (s1, n1) =>
      match compileChunks cs n1 with
      | .error e => .error e
      | .ok (s2, n2) => .ok (s1 ++ s2, n2)

/-- The overview/title slide of `compile_chunk_slides`: the supplied
`overview_data` with its `slide_number` forced to 1, or the synthesised
default. -/
def overviewSlide (cfg : CompilerCfg) (chunk_count : Int)
    (overview_data : Option PyDict) : PyDict :=
  match overview_data with
  | some ov => dset ov "slide_number" (.jint 1)
  | none =>
    [("slide_number", .jint 1),
     ("slide_type", .jstr "title"),
     ("title", .jstr ("Comprehensive Overview: " ++ cfg.topic)),
     ("subtitle", .jstr ("Content compiled from " ++ toString chunk_count ++
       " major sections")),
     ("bullets", .jlist []),
     ("speaker_notes", .jstr ("This presentation covers " ++ cfg.topic ++
       " across " ++ toString chunk_count ++ " comprehensive sections.")),
     ("visuals", .jdict [("icons", .jlist [.jstr "presentation"]),
                         ("symbols", .jlist [])])]

/-- The conclusion slide of `compile_chunk_slides`, carrying the final value
`n` of the `slide_number` counter. -/
def conclusionSlide (cfg : CompilerCfg) (n : Int) : PyDict :=
  [("slide_number", .jint n),
   ("slide_type", .jstr "conclusion"),
   ("title", .jstr "Conclusion & Key Takeaways"),
   ("subtitle", .jstr (cfg.topic ++ " Summary")),
   ("bullets", .jlist
     [.jstr "Comprehensive coverage across all major sections",
      .jstr "Integrated key findings into structured presentation",
      .jstr "Ready for discussion and strategic decision-making",
      .jstr "Actionable insights delivered through professional analysis"]),
   ("speaker_notes", .jstr
     "Thank you for reviewing this comprehensive presentation. We have covered all major aspects with professional analysis and detailed insights."),
   ("visuals", .jdict [("icons", .jlist [.jstr "checkmark"]),
                       ("symbols", .jlist [])])]

/-- `ChunkJSONCompiler.compile_chunk_slides`: overview slide (supplied or
synthesised), normalised chunk slides numbered from 2, a conclusion slide
carrying the final counter value, and the top-level document whose
`total_slides` is `slide_number - 1`. -/
def compile_chunk_slides (cfg : CompilerCfg) (chunk_slides_list : List (List PyDict))
    (chunk_count : Int) (overview_data : Option PyDict) : Except String PyDict :=
  match compileChunks chunk_slides_list 2 with
  | .error e => .error e
  | .ok (body, n) =>
    .ok [("presentation_title", .jstr (cfg.topic ++ " - Comprehensive Presentation")),
         ("topic", .jstr cfg.topic),
         ("target_audience", .jstr cfg.target_audience),
         ("tone", .jstr cfg.tone),
         ("total_slides", .jint (n - 1)),
         ("slides", .jlist ((overviewSlide cfg chunk_count overview_data :: body ++
           [conclusionSlide cfg n]).map .jdict)),
         ("metadata", .jdict [("generated_with_chunking", .jbool true),
                              ("number_of_chunks", .jint chunk_count),
                              ("compilation_status", .jstr "unified")])]

instance {ε α : Type} [DecidableEq ε] [DecidableEq α] : DecidableEq (Except ε α) :=
  fun a b =>
    match a, b with
    | .error e1, .error e2 =>
      if h : e1 = e2 then isTrue (by rw [h]) else isFalse (by
        intro hh; cases hh; exact h rfl)
    | .ok x, .ok y =>
      if h : x = y then isTrue (by rw [h]) else isFalse (by
        intro hh; cases hh; exact h rfl)
    | .error _, .ok _ => isFalse (fun hh => Except.noConfusion hh)
    | .ok _, .error _ => isFalse (fun hh => Except.noConfusion hh)

/-- Length of the `"slides"` list of a document, when it is a list. -/
def slidesLen (doc : PyDict) : Option Nat :=
  match dget doc "slides" with
  | some (.jlist l) => some l.length
  | _ => none

theorem compileInner_count : ∀ (l : List PyDict) (n : Int) (r : List PyDict × Int),
    compileInner l n = .ok r → r.2 = n + l.length ∧ r.1.length = l.length := by
  intro l
  induction l with
  | nil =>
    intro n r h
    simp only [compileInner, Except.ok.injEq] at h
    subst h; simp
  | cons s ss ih =>
    intro n r h
    simp only [compileInner] at h
    cases hn : normalize_slide s n with
    | error e => rw [hn] at h; exact absurd h (by simp)
    | ok ns =>
      rw [hn] at h
      cases hr : compileInner ss (n + 1) with
      | error e => rw [hr] at h; exact absurd h (by simp)
      | ok p =>
        obtain ⟨rest, n2⟩ := p
        rw [hr] at h
        simp only [Except.ok.injEq] at h
        subst h
        obtain ⟨h1, h2⟩ := ih (n + 1) (rest, n2) hr
        refine ⟨?_, ?_⟩
        · simp only at h1
          rw [h1]
          simp only [List.length_cons]
          push_cast
          ring
        · simp only at h2
          simp [h2]

theorem compileChunks_count : ∀ (ls : List (List PyDict)) (n : Int)
    (r : List PyDict × Int), compileChunks ls n = .ok r →
    r.2 = n + ((ls.map List.length).sum : Int) ∧
    r.1.length = (ls.map List.length).sum := by
  intro ls
  induction ls with
  | nil =>
    intro n r h
    simp only [compileChunks, Except.ok.injEq] at h
    subst h; simp
  | cons c cs ih =>
    intro n r h
    simp only [compileChunks] at h
    split at h
    · exact absurd h (by simp)
    · rename_i s1 n1 heq
      split at h
      · exact absurd h (by simp)
      · rename_i s2 n2 heq2
        simp only [Except.ok.injEq] at h
        subst h
        obtain ⟨hi1, hi2⟩ := compileInner_count c n (s1, n1) heq
        obtain ⟨ho1, ho2⟩ := ih n1 (s2, n2) heq2
        simp only at hi1 hi2 ho1 ho2
        constructor
        · rw [ho1, hi1]
          simp only [List.map_cons, List.sum_cons]
          push_cast
          ring
        · simp [hi2, ho2]

/-- The C4 compiler configuration used in the closed theorems. -/
def c4cfg : CompilerCfg := ⟨"T", "Everyone", "professional"⟩

/-- C4 counterexample: with no chunks and no overview the compiled document
has two slides (synthesised overview and conclusion) but `total_slides = 1`:
`compile_chunk_slides` alone does not satisfy `total == len(slides)` — the
conclusion slide is appended without bumping the counter, and the invariant
only gets restored by the later `validate_compiled_json` call. -/
theorem C4_total_slides_off_by_one :
    (compile_chunk_slides c4cfg [] 0 none).map
      (fun doc => (dget doc "total_slides", slidesLen doc))
      = .ok (some (.jint 1), some 2) := by
  decide

/-- C4 (amended): whenever `compile_chunk_slides` returns a document, its
`total_slides` field equals the length of its slides list **minus one** (the
appended conclusion slide is not counted). -/
theorem C4_compile_total_is_len_minus_one (cfg : CompilerCfg)
    (chunk_slides_list : List (List PyDict)) (chunk_count : Int)
    (overview_data : Option PyDict) (doc : PyDict)
    (h : compile_chunk_slides cfg chunk_slides_list chunk_count overview_data
      = .ok doc) :
    ∃ S : List PyDict,
      dget doc "slides" = some (.jlist (S.map .jdict)) ∧
      dget doc "total_slides" = some (.jint ((S.length : Int) - 1)) := by
  unfold compile_chunk_slides at h
  cases hc : compileChunks chunk_slides_list 2 with
  | error e => rw [hc] at h; exact absurd h (by simp)
  | ok p =>
    obtain ⟨body, n⟩ := p
    rw [hc] at h
    simp only [Except.ok.injEq] at h
    obtain ⟨h1, h2⟩ := compileChunks_count chunk_slides_list 2 (body, n) hc
    simp only at h1 h2
    subst h
    refine ⟨overviewSlide cfg chunk_count overview_data :: body ++
      [conclusionSlide cfg n], rfl, ?_⟩
    have h2' : (body.length : Int)
        = ((chunk_slides_list.map List.length).sum : Int) := by exact_mod_cast h2
    have hS : (((overviewSlide cfg chunk_count overview_data :: body ++
        [conclusionSlide cfg n]).length : Nat) : Int) = n := by
      simp only [List.length_cons, List.length_append, List.length_nil]
      push_cast
      omega
    rw [hS]
    rfl

/-- The C4 witness inputs: one chunk with one slide. -/
def c4slide : PyDict := [("title", .jstr "x")]

/-- The document compiled from `c4slide` (used by the C4 witness). -/
def c4doc : PyDict :=
  match compile_chunk_slides c4cfg [[c4slide]] 1 none with
  | .ok d => d
  | .error _ => []

/-- C4 witness: the amended theorem instantiated at a concrete compilation. -/
theorem C4_total_is_len_minus_one_witness :
    ∃ S : List PyDict,
      dget c4doc "slides" = some (.jlist (S.map .jdict)) ∧
      dget c4doc "total_slides" = some (.jint ((S.length : Int) - 1)) :=
  C4_compile_total_is_len_minus_one c4cfg [[c4slide]] 1 none c4doc (by decide)

/-! ## `ChunkJSONCompiler.validate_compiled_json` (claim C3) -/

/-- The slide numbering loop
`for i, slide in enumerate(slides): slide["slide_number"] = i + 1`. -/
def numberSlides : Nat → List PyDict → List PyDict
  | _, [] => []
  | i, d :: ds => dset d "slide_number" (.jint ((i : Int) + 1)) :: numberSlides (i + 1) ds

/-- The closed set of valid slide types. -/
def validTypes : List JVal :=
  [.jstr "title", .jstr "content", .jstr "section", .jstr "conclusion"]

/-- `if slide.get("slide_type") not in valid_types: slide["slide_type"] = "content"`. -/
def coerceType (d : PyDict) : PyDict :=
  if ((dget d "slide_type").getD .jnull) ∈ validTypes then d
  else dset d "slide_type" (.jstr "content")

/-- `if not isinstance(slide.get(k), str): slide[k] = str(slide.get(k, ""))`. -/
def coerceStrField (f : String) (d : PyDict) : PyDict :=
  match dget d f with
  | some (.jstr _) => d
  | _ => dset d f (.jstr (pyStr ((dget d f).getD (.jstr ""))))

/-- The bullets pass: a non-list becomes `[]`, a list has every element
converted with `str`. -/
def coerceBullets (d : PyDict) : PyDict :=
  match (dget d "bullets").getD (.jlist []) with
  | .jlist l => dset d "bullets" (.jlist (l.map (fun b => .jstr (pyStr b))))
  | _ => dset d "bullets" (.jlist [])

/-- The slides list re-read as a list of dictionaries; Python raises a
`TypeError` at the first non-dictionary element of the numbering loop. -/
def asDicts : List JVal → Except String (List PyDict)
  | [] => .ok []
  | s :: ss =>
    match s with
    | .jdict d =>
      match asDicts ss with
      | .error e => .error e
      | .ok ds => .ok (d :: ds)
    | _ => .error "TypeError: slide is not a dict"

/-- The required top-level fields checked first by `validate_compiled_json`. -/
def requiredFields : List String :=
  ["presentation_title", "topic", "target_audience", "tone", "slides"]

/-- The five per-slide passes of `validate_compiled_json`, in source order:
numbering, type coercion, title, subtitle, bullets, speaker notes. -/
def validatePasses (sl0 : List PyDict) : List PyDict :=
  let sl1 := numberSlides 0 sl0
  let sl2 := sl1.map coerceType
  let sl3 := sl2.map (coerceStrField "title")
  let sl4 := sl3.map (coerceStrField "subtitle")
  let sl5 := sl4.map coerceBullets
  sl5.map (coerceStrField "speaker_notes")

/-- `ChunkJSONCompiler.validate_compiled_json`: required-field check, empty
check, slide renumbering, slide-type coercion, title/subtitle string
coercion, bullets coercion, speaker-notes coercion, and the final
`total_slides = len(slides)` update.  (The source's local variable
`slides = json_data.get("slides", [])` is inlined.) -/
def validate_compiled_json (json_data : PyDict) : Except String PyDict :=
  match requiredFields.find? (fun f => (dget json_data f).isNone) with
  | some f => .error ("Missing required field: " ++ f)
  | none =>
    if truthy ((dget json_data "slides").getD (.jlist [])) = false then
      .error "No slides in presentation"
    else
      match (dget json_data "slides").getD (.jlist []) with
      | .jlist sl =>
        match asDicts sl with
        | .error e => .error e
        | .ok sl0 =>
          .ok (dset (dset json_data "slides"
              (.jlist ((validatePasses sl0).map .jdict)))
            "total_slides" (.jint ((validatePasses sl0).length : Int)))
      | _ => .error "TypeError: slides value is not a list of dicts"

/-- All four per-slide coercion passes fused into one function (the separate
`map`s of `validate_compiled_json` compose to a single `map` of this). -/
def coerceAll (d : PyDict) : PyDict :=
  coerceStrField "speaker_notes" (coerceBullets (coerceStrField "subtitle"
    (coerceStrField "title" (coerceType d))))

theorem dget_coerceType_ne (d : PyDict) (k : String) (h : k ≠ "slide_type") :
    dget (coerceType d) k = dget d k := by
  unfold coerceType
  split
  · rfl
  · exact dget_dset_ne _ _ _ _ (Ne.symm h)

theorem coerceType_valid (d : PyDict) :
    ((dget (coerceType d) "slide_type").getD .jnull) ∈ validTypes := by
  unfold coerceType
  split
  · assumption
  · rw [dget_dset_self]
    simp [validTypes]

theorem dget_coerceStrField_ne (f : String) (d : PyDict) (k : String)
    (h : k ≠ f) : dget (coerceStrField f d) k = dget d k := by
  unfold coerceStrField
  split
  · rfl
  · exact dget_dset_ne _ _ _ _ (Ne.symm h)

theorem coerceStrField_isStr (f : String) (d : PyDict) :
    ∃ t, dget (coerceStrField f d) f = some (.jstr t) := by
  unfold coerceStrField
  split
  next s heq => exact ⟨s, heq⟩
  next => exact ⟨_, dget_dset_self _ _ _⟩

theorem dget_coerceBullets_ne (d : PyDict) (k : String) (h : k ≠ "bullets") :
    dget (coerceBullets d) k = dget d k := by
  unfold coerceBullets
  split
  · exact dget_dset_ne _ _ _ _ (Ne.symm h)
  · exact dget_dset_ne _ _ _ _ (Ne.symm h)

theorem coerceBullets_shape (d : PyDict) :
    ∃ bs : List String,
      dget (coerceBullets d) "bullets" = some (.jlist (bs.map .jstr)) := by
  unfold coerceBullets
  split
  next l heq =>
    refine ⟨l.map pyStr, ?_⟩
    rw [dget_dset_self, List.map_map]
    rfl
  next => exact ⟨[], dget_dset_self _ _ _⟩

theorem coerceAll_number (d : PyDict) :
    dget (coerceAll d) "slide_number" = dget d "slide_number" := by
  unfold coerceAll
  rw [dget_coerceStrField_ne _ _ _ (by decide),
    dget_coerceBullets_ne _ _ (by decide),
    dget_coerceStrField_ne _ _ _ (by decide),
    dget_coerceStrField_ne _ _ _ (by decide),
    dget_coerceType_ne _ _ (by decide)]

theorem coerceAll_props (d : PyDict) :
    ((dget (coerceAll d) "slide_type").getD .jnull) ∈ validTypes ∧
    (∃ t, dget (coerceAll d) "title" = some (.jstr t)) ∧
    (∃ t, dget (coerceAll d) "subtitle" = some (.jstr t)) ∧
    (∃ t, dget (coerceAll d) "speaker_notes" = some (.jstr t)) ∧
    (∃ bs : List String,
      dget (coerceAll d) "bullets" = some (.jlist (bs.map .jstr))) := by
  unfold coerceAll
  refine ⟨?_, ?_, ?_, ?_, ?_⟩
  · rw [dget_coerceStrField_ne _ _ _ (by decide),
      dget_coerceBullets_ne _ _ (by decide),
      dget_coerceStrField_ne _ _ _ (by decide),
      dget_coerceStrField_ne _ _ _ (by decide)]
    exact coerceType_valid d
  · rw [dget_coerceStrField_ne _ _ _ (by decide),
      dget_coerceBullets_ne _ _ (by decide),
      dget_coerceStrField_ne _ _ _ (by decide)]
    exact coerceStrField_isStr _ _
  · rw [dget_coerceStrField_ne _ _ _ (by decide),
      dget_coerceBullets_ne _ _ (by decide)]
    exact coerceStrField_isStr _ _
  · exact coerceStrField_isStr _ _
  · rw [dget_coerceStrField_ne _ _ _ (by decide)]
    exact coerceBullets_shape _

theorem numberSlides_length : ∀ (k : Nat) (ds : List PyDict),
    (numberSlides k ds).length = ds.length := by
  intro k ds
  induction ds generalizing k with
  | nil => rfl
  | cons d ds ih => simp [numberSlides, ih]

theorem mapped_numbers : ∀ (ds : List PyDict) (k : Nat),
    ((numberSlides k ds).map coerceAll).map (fun d => dget d "slide_number")
      = (List.range ds.length).map
          (fun i : Nat => some (JVal.jint ((k : Int) + (i : Int) + 1))) := by
  intro ds
  induction ds with
  | nil => intro k; rfl
  | cons d ds ih =>
    intro k
    simp only [numberSlides, List.map_cons, List.length_cons]
    rw [coerceAll_number, dget_dset_self]
    rw [List.range_succ_eq_map, List.map_cons]
    refine List.cons_eq_cons.mpr ⟨by norm_num, ?_⟩
    rw [ih (k + 1), List.map_map]
    have hfun : ((fun i : Nat => some (JVal.jint ((k : Int) + (i : Int) + 1))) ∘ Nat.succ)
        = fun i : Nat => some (JVal.jint (((k + 1 : Nat) : Int) + (i : Int) + 1)) := by
      funext i
      simp only [Function.comp]
      congr 2
      push_cast
      ring
    rw [hfun]

theorem asDicts_length : ∀ (sl : List JVal) (sl0 : List PyDict),
    asDicts sl = .ok sl0 → sl0.length = sl.length := by
  intro sl
  induction sl with
  | nil =>
    intro sl0 h
    simp only [asDicts, Except.ok.injEq] at h
    subst h; rfl
  | cons s ss ih =>
    intro sl0 h
    simp only [asDicts] at h
    split at h
    · split at h
      · exact absurd h (by simp)
      · next ds heq =>
          simp only [Except.ok.injEq] at h
          subst h
          simp [ih ds heq]
    · exact absurd h (by simp)

/-- C3: every document returned by `validate_compiled_json` has its slides'
`slide_number` fields equal to exactly `1..N` in list order, `total_slides`
equal to `N`, every `slide_type` in the closed set, `title`, `subtitle` and
`speaker_notes` coerced to strings, and `bullets` a list of strings. -/
theorem C3_validate_normalises (json_data out : PyDict)
    (h : validate_compiled_json json_data = .ok out) :
    ∃ sl : List PyDict,
      dget out "slides" = some (.jlist (sl.map .jdict)) ∧
      dget out "total_slides" = some (.jint (sl.length : Int)) ∧
      sl ≠ [] ∧
      sl.map (fun d => dget d "slide_number")
        = (List.range sl.length).map (fun i : Nat => some (.jint ((i : Int) + 1))) ∧
      ∀ d ∈ sl,
        ((dget d "slide_type").getD .jnull) ∈ validTypes ∧
        (∃ t, dget d "title" = some (.jstr t)) ∧
        (∃ t, dget d "subtitle" = some (.jstr t)) ∧
        (∃ t, dget d "speaker_notes" = some (.jstr t)) ∧
        (∃ bs : List String, dget d "bullets" = some (.jlist (bs.map .jstr))) := by
  unfold validate_compiled_json at h
  split at h
  · exact absurd h (by simp)
  · split at h
    · exact absurd h (by simp)
    · rename_i htruthy
      split at h
      case h_2 => exact absurd h (by simp)
      case h_1 sl heq =>
        split at h
        · exact absurd h (by simp)
        · rename_i sl0 heq2
          simp only [Except.ok.injEq] at h
          subst h
          have hfuse : validatePasses sl0 = (numberSlides 0 sl0).map coerceAll := by
            simp only [validatePasses, List.map_map]
            rfl
          have hslnil : sl ≠ [] := by
            intro hnil
            subst hnil
            exact htruthy (by rw [heq]; rfl)
          have hlenS : ((numberSlides 0 sl0).map coerceAll).length = sl.length := by
            rw [List.length_map, numberSlides_length, asDicts_length sl sl0 heq2]
          refine ⟨(numberSlides 0 sl0).map coerceAll, ?_, ?_, ?_, ?_, ?_⟩
          · rw [← hfuse]
            rw [dget_dset_ne _ _ _ _ (by decide), dget_dset_self]
          · rw [dget_dset_self, hfuse]
          · intro hnil
            have := hlenS
            rw [hnil] at this
            simp at this
            exact hslnil (List.length_eq_zero.mp this.symm)
          · rw [mapped_numbers sl0 0, hlenS, asDicts_length sl sl0 heq2]
            have hfun : (fun i : Nat => some (JVal.jint (((0 : Nat) : Int) + (i : Int) + 1)))
                = fun i : Nat => some (JVal.jint ((i : Int) + 1)) := by
              funext i
              norm_num
            rw [hfun]
          · intro d hd
            rw [List.mem_map] at hd
            obtain ⟨d', _, rfl⟩ := hd
            exact coerceAll_props d'

/-- A concrete document for the C3 witness: one slide whose title is the
integer 5 and whose type is missing. -/
def c3doc : PyDict :=
  [("presentation_title", .jstr "p"), ("topic", .jstr "t"),
   ("target_audience", .jstr "a"), ("tone", .jstr "professional"),
   ("slides", .jlist [.jdict [("title", .jint 5)]])]

/-- The validated form of `c3doc`. -/
def c3out : PyDict :=
  match validate_compiled_json c3doc with
  | .ok d => d
  | .error _ => []

/-- C3 witness: the theorem instantiated at `c3doc`. -/
theorem C3_validate_normalises_witness :
    ∃ sl : List PyDict,
      dget c3out "slides" = some (.jlist (sl.map .jdict)) ∧
      dget c3out "total_slides" = some (.jint (sl.length : Int)) ∧
      sl ≠ [] ∧
      sl.map (fun d => dget d "slide_number")
        = (List.range sl.length).map (fun i : Nat => some (.jint ((i : Int) + 1))) ∧
      ∀ d ∈ sl,
        ((dget d "slide_type").getD .jnull) ∈ validTypes ∧
        (∃ t, dget d "title" = some (.jstr t)) ∧
        (∃ t, dget d "subtitle" = some (.jstr t)) ∧
        (∃ t, dget d "speaker_notes" = some (.jstr t)) ∧
        (∃ bs : List String, dget d "bullets" = some (.jlist (bs.map .jstr))) :=
  C3_validate_normalises c3doc c3out (by decide)

/-! ## `repair_json_string` (presentation_generator.py, claims C7 and C8)

Each `re.sub` of the source is modelled as a left-to-right scanner: at each
position it attempts the pattern; on a match it emits the replacement and
resumes after the matched region (as `re.sub` does), otherwise it emits one
character and advances.  `\s` is modelled as `pyWs` (the ASCII whitespace the
inputs in this file contain). -/

/-- Generic single-pass substitution: `tm` returns the replacement and the
rest after the match.  The fuel bounds the number of steps; every matcher
below consumes at least one character, so the input length suffices. -/
def scanSub (tm : List Char → Option (List Char × List Char)) :
    Nat → List Char → List Char
  | 0, l => l
  | _ + 1, [] => []
  | fuel + 1, c :: cs =>
    match tm (c :: cs) with
    | some (rep, rest) => rep ++ scanSub tm fuel rest
    | none => c :: scanSub tm fuel cs

/-- `re.sub(r'\\\\"', '"')`: collapse a double-escaped quote. -/
def tryDblBackslashQuote : List Char → Option (List Char × List Char)
  | '\\' :: '\\' :: '"' :: rest => some (['"'], rest)
  | _ => none

/-- `re.sub(r"'([^']*)'(\s*):", r'"\1"\2:')`: single-quoted property name. -/
def tryQuoteKey : List Char → Option (List Char × List Char)
  | '\'' :: cs =>
    let content := cs.takeWhile (fun d => d ≠ '\'')
    match cs.dropWhile (fun d => d ≠ '\'') with
    | '\'' :: rest2 =>
      let ws := rest2.takeWhile pyWs
      match rest2.dropWhile pyWs with
      | ':' :: rest4 => some ('"' :: content ++ '"' :: ws ++ [':'], rest4)
      | _ => none
    | _ => none
  | _ => none

/-- `re.sub(r":\s*'([^']*)'(\s*[,\}])", r': "\1"\2')`: single-quoted string
value directly after a colon (note the replacement normalises the space
after the colon to exactly one). -/
def tryQuoteVal : List Char → Option (List Char × List Char)
  | ':' :: cs =>
    match cs.dropWhile pyWs with
    | '\'' :: r2 =>
      let content := r2.takeWhile (fun d => d ≠ '\'')
      match r2.dropWhile (fun d => d ≠ '\'') with
      | '\'' :: r4 =>
        let ws2 := r4.takeWhile pyWs
        match r4.dropWhile pyWs with
        | d :: r6 =>
          if d = ',' ∨ d = '}' then
            some (':' :: ' ' :: '"' :: content ++ '"' :: (ws2 ++ [d]), r6)
          else none
        | [] => none
      | _ => none
    | _ => none
  | _ => none

/-- `re.sub(r',(\s*[}\]])', r'\1')`: trailing comma before a closer. -/
def tryTrailingComma : List Char → Option (List Char × List Char)
  | ',' :: cs =>
    let ws := cs.takeWhile pyWs
    match cs.dropWhile pyWs with
    | d :: rest => if d = '}' ∨ d = ']' then some (ws ++ [d], rest) else none
    | [] => none
  | _ => none

/-- `re.sub(r'(\})\s*(\{)', r'\1,\2')` and its three siblings: missing comma
between a closer `a` and an opener `b` (the whitespace between them is not in
a group, so it is dropped by the replacement). -/
def tryBracketPair (a b : Char) : List Char → Option (List Char × List Char) :=
  fun l =>
    match l with
    | c :: cs =>
      if c = a then
        match cs.dropWhile pyWs with
        | d :: rest => if d = b then some ([a, ',', b], rest) else none
        | [] => none
      else none
    | [] => none

/-- `re.sub(r'("\s*)(\{)', r'\1,\2')` and the `[` sibling: missing comma
after a closing quote. -/
def tryQuoteBracket (b : Char) : List Char → Option (List Char × List Char) :=
  fun l =>
    match l with
    | '"' :: cs =>
      let ws := cs.takeWhile pyWs
      match cs.dropWhile pyWs with
      | d :: rest => if d = b then some ('"' :: ws ++ [',', b], rest) else none
      | [] => none
    | _ => none

/-- `re.sub(r'^```.*?\n', '', flags=MULTILINE)`: at each line start, drop a
line beginning with a code fence together with its newline (`.` does not
cross the newline, so an unterminated final fence line stays). -/
def fenceOpenGo : Nat → List Char → List Char
  | 0, l => l
  | _ + 1, [] => []
  | fuel + 1, l =>
    if "```".data.isPrefixOf l ∧ l.dropWhile (· ≠ '\n') ≠ [] then
      fenceOpenGo fuel ((l.dropWhile (· ≠ '\n')).drop 1)
    else
      match l.dropWhile (· ≠ '\n') with
      | '\n' :: rest => l.takeWhile (· ≠ '\n') ++ '\n' :: fenceOpenGo fuel rest
      | _ => l

/-- `re.sub(r'\n```$', '', flags=MULTILINE)`: drop a newline followed by a
fence that ends its line. -/
def fenceCloseGo : Nat → List Char → List Char
  | 0, l => l
  | _ + 1, [] => []
  | fuel + 1, '\n' :: rest =>
    if "```".data.isPrefixOf rest ∧
        (rest.drop 3 = [] ∨ (rest.drop 3).head? = some '\n') then
      fenceCloseGo fuel (rest.drop 3)
    else '\n' :: fenceCloseGo fuel rest
  | fuel + 1, c :: cs => c :: fenceCloseGo fuel cs

/-- The explicit quote-toggle scan of the source: escape pairs are copied
verbatim, a quote not preceded by a backslash (in the input) toggles the
in-string state, and a literal newline inside a string becomes `\n`.
`prev` is the previously consumed input character. -/
def escNlGo : Nat → Option Char → Bool → List Char → List Char
  | 0, _, _, l => l
  | _ + 1, _, _, [] => []
  | fuel + 1, prev, inStr, c :: cs =>
    if c = '\\' ∧ cs ≠ [] then
      match cs with
      | d :: rest => c :: d :: escNlGo fuel (some d) inStr rest
      | [] => [c]
    else if c = '"' ∧ (prev = none ∨ prev ≠ some '\\') then
      c :: escNlGo fuel (some c) (!inStr) cs
    else if c = '\n' ∧ inStr then
      '\\' :: 'n' :: escNlGo fuel (some c) inStr cs
    else
      c :: escNlGo fuel (some c) inStr cs

/-- Occurrences of a character (Python `str.count` for a single char). -/
def countChar (c : Char) (l : List Char) : Nat :=
  (l.filter (fun d => d = c)).length

/-- Run a single-pass substitution over a whole string. -/
def runSub (tm : List Char → Option (List Char × List Char))
    (s : List Char) : List Char :=
  scanSub tm s.length s

/-- The fence-removal branch: only taken when the stripped reply starts with
a markdown code fence, in which case both fence substitutions run and the
result is stripped again. -/
def repairFence (s0 : List Char) : List Char :=
  if "```".data.isPrefixOf s0 then
    pyStrip (fenceCloseGo (fenceOpenGo s0.length s0).length
      (fenceOpenGo s0.length s0))
  else s0

/-- Drop a leading byte-order mark. -/
def repairBOM (s : List Char) : List Char :=
  match s with
  | '\uFEFF' :: rest => rest
  | _ => s

/-- The newline-escape scan over a whole string. -/
def runEscNl (s : List Char) : List Char :=
  escNlGo s.length none false s

/-- Append the missing closing braces and brackets
(`json_str.count('{') - json_str.count('}')` and likewise for brackets;
counts are raw, string literals included). -/
def repairCloseBrackets (s : List Char) : List Char :=
  let openBraces : Int := (countChar '{' s : Int) - (countChar '}' s : Int)
  let openBrackets : Int := (countChar '[' s : Int) - (countChar ']' s : Int)
  (s ++ List.replicate openBraces.toNat '}') ++
    List.replicate openBrackets.toNat ']'

/-- `repair_json_string`: strip, fence removal, BOM removal, the regex
substitutions in source order, the newline-escape scan, then appending the
missing closing braces/brackets. -/
def repair_json_string (json_str : List Char) : List Char :=
  repairCloseBrackets (runEscNl
    (runSub (tryQuoteBracket '[') (runSub (tryQuoteBracket '{')
      (runSub (tryBracketPair ']' '[') (runSub (tryBracketPair ']' '{')
        (runSub (tryBracketPair '}' '[') (runSub (tryBracketPair '}' '{')
          (runSub tryTrailingComma (runSub tryQuoteVal (runSub tryQuoteKey
            (runSub tryDblBackslashQuote
              (repairBOM (repairFence (pyStrip json_str))))))))))))))

/-! ## A model of `json.loads` (the subset exercised by the pipeline) -/

/-- JSON structural whitespace (`json.loads` accepts exactly these). -/
def jsonWs (c : Char) : Bool :=
  c == ' ' || c == '\t' || c == '\n' || c == '\r'

/-- Skip JSON whitespace. -/
def jsonSkipWs (l : List Char) : List Char :=
  l.dropWhile jsonWs

/-- Parse the body of a string literal after its opening quote.  Like
`json.loads` (strict mode) it rejects raw control characters; `\uXXXX`
escapes are not modelled (no input in this file contains them). -/
def parseStringBody : Nat → List Char → Option (List Char × List Char)
  | 0, _ => none
  | _ + 1, [] => none
  | _ + 1, '"' :: rest => some ([], rest)
  | fuel + 1, '\\' :: e :: rest =>
    let esc : Option Char :=
      if e = '"' then some '"'
      else if e = '\\' then some '\\'
      else if e = '/' then some '/'
      else if e = 'n' then some '\n'
      else if e = 't' then some '\t'
      else if e = 'r' then some '\r'
      else if e = 'b' then some '\x08'
      else if e = 'f' then some '\x0c'
      else none
    match esc with
    | some c =>
      match parseStringBody fuel rest with
      | some (s, r) => some (c :: s, r)
      | none => none
    | none => none
  | fuel + 1, c :: rest =>
    if c.toNat < 32 then none
    else
      match parseStringBody fuel rest with
      | some (s, r) => some (c :: s, r)
      | none => none

/-- Parse a run of decimal digits as a natural number. -/
def parseIntDigits (l : List Char) : Option (Int × List Char) :=
  let ds := l.takeWhile Char.isDigit
  if ds = [] then none
  else some ((ds.foldl (fun acc c => acc * 10 + (c.toNat - '0'.toNat)) 0 : Nat),
    l.dropWhile Char.isDigit)

mutual
/-- Parse one JSON value (integers only among numbers; the inputs in this
file contain no floats). -/
def parseVal : Nat → List Char → Option (JVal × List Char)
  | 0, _ => none
  | fuel + 1, l =>
    match jsonSkipWs l with
    | '{' :: rest =>
      match jsonSkipWs rest with
      | '}' :: r2 => some (.jdict [], r2)
      | _ => parseMembers fuel rest []
    | '[' :: rest =>
      match jsonSkipWs rest with
      | ']' :: r2 => some (.jlist [], r2)
      | _ => parseElems fuel rest []
    | '"' :: rest =>
      match parseStringBody rest.length rest with
      | some (s, r) => some (.jstr ⟨s⟩, r)
      | none => none
    | 't' :: 'r' :: 'u' :: 'e' :: rest => some (.jbool true, rest)
    | 'f' :: 'a' :: 'l' :: 's' :: 'e' :: rest => some (.jbool false, rest)
    | 'n' :: 'u' :: 'l' :: 'l' :: rest => some (.jnull, rest)
    | '-' :: rest =>
      match parseIntDigits rest with
      | some (n, r) => some (.jint (-n), r)
      | none => none
    | c :: rest =>
      if c.isDigit then
        match parseIntDigits (c :: rest) with
        | some (n, r) => some (.jint n, r)
        | none => none
      else none
    | [] => none

/-- Parse the members of a non-empty object, accumulating in order. -/
def parseMembers : Nat → List Char → List (String × JVal) →
    Option (JVal × List Char)
  | 0, _, _ => none
  | fuel + 1, l, acc =>
    match jsonSkipWs l with
    | '"' :: rest =>
      match parseStringBody rest.length rest with
      | some (k, r1) =>
        match jsonSkipWs r1 with
        | ':' :: r2 =>
          match parseVal fuel r2 with
          | some (v, r3) =>
            match jsonSkipWs r3 with
            | ',' :: r4 => parseMembers fuel r4 (acc ++ [(⟨k⟩, v)])
            | '}' :: r4 => some (.jdict (acc ++ [(⟨k⟩, v)]), r4)
            | _ => none
          | none => none
        | _ => none
      | none => none
    | _ => none

/-- Parse the elements of a non-empty array, accumulating in order. -/
def parseElems : Nat → List Char → List JVal → Option (JVal × List Char)
  | 0, _, _ => none
  | fuel + 1, l, acc =>
    match parseVal fuel l with
    | some (v, r1) =>
      match jsonSkipWs r1 with
      | ',' :: r2 => parseElems fuel r2 (acc ++ [v])
      | ']' :: r2 => some (.jlist (acc ++ [v]), r2)
      | _ => none
    | none => none
end

/-- `json.loads`: parse one value and require only whitespace after it. -/
def jsonParse (l : List Char) : Option JVal :=
  match parseVal (l.length + 1) l with
  | some (v, rest) => if jsonSkipWs rest = [] then some v else none
  | none => none

/-! ## Identity of the repair on clean input (claim C7) -/

/-- No suffix of the string matches the substitution pattern. -/
def noMatchB (tm : List Char → Option (List Char × List Char)) :
    List Char → Bool
  | [] => (tm []).isNone
  | c :: cs => (tm (c :: cs)).isNone && noMatchB tm cs

theorem scanSub_id (tm : List Char → Option (List Char × List Char)) :
    ∀ (fuel : Nat) (l : List Char), l.length ≤ fuel → noMatchB tm l = true →
      scanSub tm fuel l = l := by
  intro fuel
  induction fuel with
  | zero =>
    intro l hlen _
    rfl
  | succ fuel ih =>
    intro l hlen hnm
    cases l with
    | nil => rfl
    | cons c cs =>
      simp only [noMatchB, Bool.and_eq_true, Option.isNone_iff_eq_none] at hnm
      simp only [scanSub, hnm.1]
      rw [ih cs (by simpa using Nat.le_of_succ_le_succ hlen) hnm.2]

theorem runSub_id (tm : List Char → Option (List Char × List Char))
    (s : List Char) (h : noMatchB tm s = true) : runSub tm s = s :=
  scanSub_id tm s.length s (Nat.le_refl _) h

theorem escNlGo_id : ∀ (fuel : Nat) (prev : Option Char) (inStr : Bool)
    (l : List Char), l.length ≤ fuel → '\\' ∉ l → '\n' ∉ l →
    escNlGo fuel prev inStr l = l := by
  intro fuel
  induction fuel with
  | zero => intro prev inStr l _ _ _; rfl
  | succ fuel ih =>
    intro prev inStr l hlen hbs hnl
    cases l with
    | nil => rfl
    | cons c cs =>
      simp only [List.mem_cons, not_or] at hbs hnl
      have hlen' : cs.length ≤ fuel := by
        simp only [List.length_cons] at hlen
        omega
      have hc1 : ¬ (c = '\\' ∧ cs ≠ []) := fun hx => hbs.1 hx.1.symm
      have hc3 : ¬ (c = '\n' ∧ inStr = true) := fun hx => hnl.1 hx.1.symm
      simp only [escNlGo, if_neg hc1]
      by_cases hq : c = '"' ∧ (prev = none ∨ prev ≠ some '\\')
      · rw [if_pos hq, ih (some c) (!inStr) cs hlen' hbs.2 hnl.2]
      · rw [if_neg hq, if_neg hc3, ih (some c) inStr cs hlen' hbs.2 hnl.2]

theorem runEscNl_id (s : List Char) (hbs : '\\' ∉ s) (hnl : '\n' ∉ s) :
    runEscNl s = s :=
  escNlGo_id s.length none false s (Nat.le_refl _) hbs hnl

/-- A "clean" structured reply: already stripped, no code fence, no BOM, no
backslashes, no literal newlines, no occurrence of any of the ten rewrite
patterns, and bracket counts that need no closing.  On such input every
stage of the repair is the identity. -/
def cleanJson (s : List Char) : Bool :=
  decide (pyStrip s = s) &&
  (!("```".data.isPrefixOf s) &&
  (decide (s.head? ≠ some '\uFEFF') &&
  (decide ('\\' ∉ s) &&
  (decide ('\n' ∉ s) &&
  (noMatchB tryDblBackslashQuote s &&
  (noMatchB tryQuoteKey s &&
  (noMatchB tryQuoteVal s &&
  (noMatchB tryTrailingComma s &&
  (noMatchB (tryBracketPair '}' '{') s &&
  (noMatchB (tryBracketPair '}' '[') s &&
  (noMatchB (tryBracketPair ']' '{') s &&
  (noMatchB (tryBracketPair ']' '[') s &&
  (noMatchB (tryQuoteBracket '{') s &&
  (noMatchB (tryQuoteBracket '[') s &&
  (decide (countChar '{' s ≤ countChar '}' s) &&
   decide (countChar '[' s ≤ countChar ']' s))))))))))))))))

theorem repairFence_id (s : List Char)
    (h : ("```".data.isPrefixOf s) = false) : repairFence s = s := by
  unfold repairFence
  rw [if_neg (by simp [h])]

theorem repairBOM_id (s : List Char) (h : s.head? ≠ some '\uFEFF') :
    repairBOM s = s := by
  unfold repairBOM
  split
  next rest => exact absurd rfl h
  next => rfl

theorem repairCloseBrackets_id (s : List Char)
    (h1 : countChar '{' s ≤ countChar '}' s)
    (h2 : countChar '[' s ≤ countChar ']' s) : repairCloseBrackets s = s := by
  have e1 : ((countChar '{' s : Int) - (countChar '}' s : Int)).toNat = 0 := by
    omega
  have e2 : ((countChar '[' s : Int) - (countChar ']' s : Int)).toNat = 0 := by
    omega
  show (s ++ List.replicate ((countChar '{' s : Int) - (countChar '}' s : Int)).toNat '}') ++
      List.replicate ((countChar '[' s : Int) - (countChar ']' s : Int)).toNat ']' = s
  rw [e1, e2]
  simp

/-- On clean input the whole repair chain is the identity. -/
theorem repair_json_string_id_of_clean (s : List Char)
    (h : cleanJson s = true) : repair_json_string s = s := by
  unfold cleanJson at h
  simp only [Bool.and_eq_true, decide_eq_true_eq, Bool.not_eq_true'] at h
  obtain ⟨h1, h2, h3, h4, h5, h6, h7, h8, h9, h10, h11, h12, h13, h14, h15,
    h16, h17⟩ := h
  unfold repair_json_string
  rw [h1, repairFence_id s h2, repairBOM_id s h3,
    runSub_id _ _ h6, runSub_id _ _ h7, runSub_id _ _ h8, runSub_id _ _ h9,
    runSub_id _ _ h10, runSub_id _ _ h11, runSub_id _ _ h12, runSub_id _ _ h13,
    runSub_id _ _ h14, runSub_id _ _ h15,
    runEscNl_id s h4 h5, repairCloseBrackets_id s h16 h17]

/-- C7 (amended): the repair is a no-op — hence preserves the parsed
structure — on clean input (no single quotes or backslashes, no substring
matching any of the repair's rewrite patterns, no literal newlines, balanced
brackets, already stripped); on general valid JSON it can rewrite string
literals and change or destroy the parse. -/
theorem C7_repair_noop_on_clean_json (s : List Char) (v : JVal)
    (hclean : cleanJson s = true) (hparse : jsonParse s = some v) :
    repair_json_string s = s ∧ jsonParse (repair_json_string s) = some v := by
  refine ⟨repair_json_string_id_of_clean s hclean, ?_⟩
  rw [repair_json_string_id_of_clean s hclean]
  exact hparse

/-- The C7 counterexample input: the valid JSON text `[",]"]` (a one-element
array whose string contains a comma and a bracket). -/
def c7bad : List Char := "[\",]\"]".data

/-- C7 counterexample: `repair_json_string` is not structure-preserving on
already-valid JSON.  On `[",]"]` the trailing-comma rewrite fires inside the
string literal and produces `["]"]`, which parses to a different value. -/
theorem C7_repair_changes_valid_json :
    jsonParse c7bad = some (.jlist [.jstr ",]"]) ∧
    jsonParse (repair_json_string c7bad) = some (.jlist [.jstr "]"]) ∧
    JVal.jlist [.jstr ",]"] ≠ JVal.jlist [.jstr "]"] := by
  decide

/-- A concrete clean JSON object for the C7 witness. -/
def c7good : List Char := "\x7b\"a\": 1\x7d".data

/-- C7 witness: the amended theorem instantiated at `{"a": 1}`. -/
theorem C7_repair_noop_witness :
    repair_json_string c7good = c7good ∧
    jsonParse (repair_json_string c7good) = some (.jdict [("a", .jint 1)]) :=
  C7_repair_noop_on_clean_json c7good (.jdict [("a", .jint 1)])
    (by decide) (by decide)

/-- A single-quote character (used to build the C8 scenario inputs). -/
def sqc : Char := '\''

/-- The C8 scenario input `{title: 'X', bullets: ['a','b',]}`. -/
def c8input : List Char :=
  "\x7btitle: ".data ++ sqc :: 'X' :: sqc :: ", bullets: [".data ++
    sqc :: 'a' :: sqc :: ',' :: sqc :: 'b' :: sqc :: ",]\x7d".data

/-- C8 counterexample: on the scenario reply the repair produces
`{title: "X", bullets: ['a','b']}` — the bare key `title` is never quoted
and the single-quoted array elements are never rewritten (the value rewrite
only fires directly after a colon) — so the result does not parse at all,
contrary to the claimed `{"title": "X", "bullets": ["a", "b"]}`. -/
theorem C8_repair_scenario_fails :
    repair_json_string c8input
      = ("\x7btitle: \"X\", bullets: [".data ++
          sqc :: 'a' :: sqc :: ',' :: sqc :: 'b' :: sqc :: "]\x7d".data) ∧
    jsonParse (repair_json_string c8input) = none ∧
    jsonParse c8input = none := by
  decide

/-- The nearby input the repair does handle:
`{'title': 'X', 'bullets': ["a","b",]}` (single-quoted keys, single-quoted
scalar value, double-quoted array elements, trailing comma). -/
def c8amended : List Char :=
  "\x7b".data ++ sqc :: "title".data ++ sqc :: ": ".data ++
    sqc :: 'X' :: sqc :: ", ".data ++
    sqc :: "bullets".data ++ sqc :: ": [\"a\",\"b\",]\x7d".data

/-- C8 (amended): on `c8amended` the repair yields a string parsing to
exactly `{"title": "X", "bullets": ["a", "b"]}`. -/
theorem C8_repair_amended_scenario :
    jsonParse (repair_json_string c8amended)
      = some (.jdict [("title", .jstr "X"),
          ("bullets", .jlist [.jstr "a", .jstr "b"])]) := by
  decide

/-! ## `GroqPresentationGenerator._extract_slide_bullets` (claim C5) -/

/-- The generator state the bullet normaliser reads: the (validated) subject
and the subject's font configuration (`SUBJECT_FONT_CONFIGS[subject]`). -/
structure GenStyle where
  subject : String
  fontTitle : String
  fontHeading : String
  fontContent : String

/-- `GroqPresentationGenerator._get_subject_bullets(subject)`: the
subject-specific bullet templates (`subject.lower()` is applied, and an
unknown subject yields `[]`). -/
def subjectBullets (subject : String) : List String :=
  if pyLower subject = "urdu" then
    ["اہم نکات اور تفصیلات", "عملی استعمال اور مثالیں",
     "مختلف نقطہ نظر اور تجزیہ", "حقائق اور شواہد"]
  else if pyLower subject = "english" then
    ["Core concepts and details", "Practical applications",
     "Comparative analysis", "Evidence and examples"]
  else if pyLower subject = "science" then
    ["Scientific principles involved", "Experimental methodology",
     "Quantifiable results and metrics", "Practical applications"]
  else if pyLower subject = "biology" then
    ["Biological mechanisms", "Cellular processes",
     "Organismal responses", "Evolutionary significance"]
  else if pyLower subject = "physics" then
    ["Physical principles at work", "Mathematical relationships",
     "Real-world applications", "Energy and force considerations"]
  else if pyLower subject = "medical" then
    ["Clinical significance", "Diagnostic indicators",
     "Treatment approaches", "Patient outcomes"]
  else if pyLower subject = "it" then
    ["Technical architecture", "System components",
     "Performance optimization", "Security considerations"]
  else if pyLower subject = "engineering" then
    ["Engineering principles", "Design specifications",
     "Material considerations", "Performance standards"]
  else []

/-- The generic professional bullets of `_generate_professional_bullets`. -/
def genericBullets : List String :=
  ["Relevant application to real-world scenarios",
   "Professional implementation considerations",
   "Performance and efficiency metrics",
   "Quality assurance and validation",
   "Risk management and mitigation strategies",
   "Stakeholder communication and reporting"]

/-- Priority 1 of `_generate_professional_bullets`: the "Key focus" bullet
from the title, when the title is truthy and longer than 5.  Python raises
when a truthy title has no `len` (numbers, booleans) or no `strip`
(lists, dictionaries). -/
def genKeyFocus (title : JVal) : Except String (List (List Char)) :=
  if truthy title then
    match pyLen title with
    | .error e => .error e
    | .ok n =>
      if 5 < n then
        match title with
        | .jstr t => .ok ["Key focus: ".data ++ pyStrip t.data]
        | _ => .error "AttributeError: value has no strip method"
      else .ok []
  else .ok []

/-- Priority 2 of `_generate_professional_bullets`: for the first
`needed_count - 1` sentences of the content longer than 10 characters, a
bullet text of the sentence's first 15 words, kept when longer than 8. -/
def genSentenceBullets (cstr : String) (needed_count : Nat)
    (b1v : List (List Char)) : List (List Char) :=
  ((((splitOnChar '.' cstr.data).map pyStrip).filter (· ≠ [])).take
    (needed_count - 1)).foldl
    (fun acc sentence =>
      if 10 < sentence.length then
        let bullet_text := joinSpace ((pySplitWs sentence).take 15)
        if 8 < bullet_text.length then acc ++ [bullet_text] else acc
      else acc) b1v

/-- Priorities 3 and 4: the source's `while len(bullets) < needed_count and
src` / `pop(0)` loop, which appends from the front of `src` until the needed
count is reached. -/
def fillFrom (bullets : List (List Char)) (src : List String)
    (needed : Nat) : List (List Char) :=
  bullets ++ (src.map String.data).take (needed - bullets.length)

/-- `GroqPresentationGenerator._generate_professional_bullets`: the four
priorities in order, cut to exactly `needed_count`.  Python raises when
`content` is not a string (`content.split`). -/
def generate_professional_bullets (subject : String) (title content : JVal)
    (needed_count : Nat) : Except String (List (List Char)) :=
  match content with
  | .jstr cstr =>
    match genKeyFocus title with
    | .error e => .error e
    | .ok b1v =>
      .ok ((fillFrom (fillFrom (genSentenceBullets cstr needed_count b1v)
        (subjectBullets subject) needed_count)
        genericBullets needed_count).take needed_count)
  | _ => .error "AttributeError: value has no split method"

/-- The computed slide kind:
`slide.get('type', slide.get('slide_type', 'standard')).lower()` (raises for
a non-string value). -/
def slideKind (slide : PyDict) : Except String String :=
  match (dget slide "type").getD ((dget slide "slide_type").getD (.jstr "standard")) with
  | .jstr ks => .ok (pyLower ks)
  | _ => .error "AttributeError: value has no lower method"

/-- The slide's raw bullet list: `slide.get('bullets', [])` (a non-list
value iterates to nothing useful; the source only ever passes lists). -/
def slideBulletsRaw (slide : PyDict) : List JVal :=
  match (dget slide "bullets").getD (.jlist []) with
  | .jlist l => l
  | _ => []

/-- The cleaning comprehension of `_extract_slide_bullets`:
`[str(b).strip() for b in bullets if b and str(b).strip() and
str(b).strip() not in ['None', 'null', '']]`. -/
def cleanBullets (bl : List JVal) : List (List Char) :=
  bl.filterMap (fun b =>
    let sb := pyStrip (pyStr b).data
    if truthy b ∧ sb ≠ [] ∧ sb ≠ "None".data ∧ sb ≠ "null".data
    then some sb else none)

/-- The top-up step: when fewer than 4 bullets survive cleaning, generate
`4 - len(bullets)` professional bullets from the slide's title and
content/subtitle. -/
def neededGen (style : GenStyle) (slide : PyDict)
    (bullets1 : List (List Char)) : Except String (List (List Char)) :=
  if bullets1.length < 4 then
    generate_professional_bullets style.subject
      ((dget slide "title").getD (.jstr "Topic"))
      ((dget slide "content").getD ((dget slide "subtitle").getD (.jstr "")))
      (4 - bullets1.length)
  else .ok []

/-- `bullets[:6]` when more than 6 survive. -/
def capBullets (bullets2 : List (List Char)) : List (List Char) :=
  if 6 < bullets2.length then bullets2.take 6 else bullets2

/-- The write-back of `_extract_slide_bullets`: the final `bullets`,
`bullet_count` and `fonts` fields. -/
def finishSlide (style : GenStyle) (slide : PyDict)
    (bullets3 : List (List Char)) : PyDict :=
  dset (dset (dset slide "bullets"
      (.jlist (bullets3.map (fun b => .jstr ⟨b⟩))))
    "bullet_count" (.jint (bullets3.length : Int)))
    "fonts" (.jdict
      [("title_font", .jstr style.fontTitle),
       ("heading_font", .jstr style.fontHeading),
       ("content_font", .jstr style.fontContent)])

/-- `GroqPresentationGenerator._extract_slide_bullets`: title/intro slides
only get fonts; any other slide gets its bullets filtered of empty /
`None` / `null` entries, topped up to 4 with generated bullets when fewer
remain, trimmed to 6, and the `bullets`, `bullet_count` and `fonts` fields
written back. -/
def extract_slide_bullets (style : GenStyle) (slide : PyDict) :
    Except String PyDict :=
  match (dget slide "type").getD ((dget slide "slide_type").getD (.jstr "standard")) with
  | .jstr ks =>
    if pyLower ks = "title" ∨ pyLower ks = "intro" then
      .ok (dset slide "fonts" (.jdict
        [("title_font", .jstr style.fontTitle),
         ("subtitle_font", .jstr style.fontHeading),
         ("content_font", .jstr style.fontContent)]))
    else
      match neededGen style slide (cleanBullets (slideBulletsRaw slide)) with
      | .error e => .error e
      | .ok gbs =>
        .ok (finishSlide style slide
          (capBullets (cleanBullets (slideBulletsRaw slide) ++ gbs)))
  | _ => .error "AttributeError: value has no lower method"

/-- A text that is neither empty nor whitespace-only ("non-empty after
trimming"). -/
def hasContent (l : List Char) : Prop := ∃ c ∈ l, pyWs c = false

instance (l : List Char) : Decidable (hasContent l) := by
  unfold hasContent
  infer_instance

theorem pySplitWsF_words : ∀ (fuel : Nat) (l w : List Char),
    w ∈ pySplitWsF fuel l → w ≠ [] ∧ ∀ c ∈ w, pyWs c = false := by
  intro fuel
  induction fuel with
  | zero => intro l w hw; simp [pySplitWsF] at hw
  | succ fuel ih =>
    intro l w hw
    cases l with
    | nil => simp [pySplitWsF] at hw
    | cons c cs =>
      simp only [pySplitWsF] at hw
      by_cases hc : pyWs c = true
      · rw [if_pos hc] at hw
        exact ih cs w hw
      · rw [if_neg hc] at hw
        rcases List.mem_cons.mp hw with h | h
        · subst h
          have hc' : pyWs c = false := by simpa using hc
          constructor
          · rw [List.takeWhile_cons, if_pos (by simp [hc'])]
            simp
          · intro x hx
            have := List.mem_takeWhile_imp hx
            simpa using this
        · exact ih _ w h

theorem dropWhile_head_false (p : Char → Bool) : ∀ (l : List Char)
    (c : Char) (cs : List Char), l.dropWhile p = c :: cs → p c = false := by
  intro l
  induction l with
  | nil => intro c cs h; simp at h
  | cons a l ih =>
    intro c cs h
    rw [List.dropWhile_cons] at h
    by_cases hp : p a = true
    · rw [if_pos hp] at h
      exact ih c cs h
    · rw [if_neg hp] at h
      injection h with h1 _
      subst h1
      simpa using hp

/-- A non-empty stripped text contains a non-whitespace character. -/
theorem pyStrip_hasContent (X : List Char) (h : pyStrip X ≠ []) :
    hasContent (pyStrip X) := by
  unfold pyStrip at h ⊢
  cases hB : (X.dropWhile pyWs).reverse.dropWhile pyWs with
  | nil => simp [hB] at h
  | cons c cs =>
    exact ⟨c, by simp, dropWhile_head_false pyWs _ c cs hB⟩

/-- Every bullet of the subject table has content. -/
theorem subjectBullets_content (subject : String) :
    ∀ b ∈ (subjectBullets subject).map String.data, hasContent b := by
  unfold subjectBullets
  split
  · intro b hb; fin_cases hb <;> decide
  · split
    · intro b hb; fin_cases hb <;> decide
    · split
      · intro b hb; fin_cases hb <;> decide
      · split
        · intro b hb; fin_cases hb <;> decide
        · split
          · intro b hb; fin_cases hb <;> decide
          · split
            · intro b hb; fin_cases hb <;> decide
            · split
              · intro b hb; fin_cases hb <;> decide
              · split
                · intro b hb; fin_cases hb <;> decide
                · intro b hb; simp at hb

/-- Every generic bullet has content. -/
theorem genericBullets_content :
    ∀ b ∈ genericBullets.map String.data, hasContent b := by
  intro b hb
  fin_cases hb <;> decide

theorem joinSpace_head_content (ws : List (List Char))
    (hws : ∀ w ∈ ws, w ≠ [] ∧ ∀ c ∈ w, pyWs c = false)
    (hne : joinSpace ws ≠ []) : hasContent (joinSpace ws) := by
  cases ws with
  | nil => simp [joinSpace, joinWith] at hne
  | cons w rest =>
    obtain ⟨hw1, hw2⟩ := hws w (by simp)
    cases hw : w with
    | nil => exact absurd hw hw1
    | cons c cs =>
      refine ⟨c, ?_, hw2 c (by rw [hw]; simp)⟩
      cases rest with
      | nil => simp [joinSpace, joinWith, hw]
      | cons r rs => simp [joinSpace, joinWith, hw]

theorem bullet_text_content (s : List Char)
    (h : 8 < (joinSpace ((pySplitWs s).take 15)).length) :
    hasContent (joinSpace ((pySplitWs s).take 15)) := by
  apply joinSpace_head_content
  · intro w hw
    exact pySplitWsF_words s.length s w (List.mem_of_mem_take hw)
  · intro hnil
    rw [hnil] at h
    simp at h

theorem foldl_bullets_content (sentences : List (List Char)) :
    ∀ acc : List (List Char), (∀ b ∈ acc, hasContent b) →
    ∀ b ∈ sentences.foldl (fun acc sentence =>
        if 10 < sentence.length then
          if 8 < (joinSpace ((pySplitWs sentence).take 15)).length then
            acc ++ [joinSpace ((pySplitWs sentence).take 15)]
          else acc
        else acc) acc, hasContent b := by
  induction sentences with
  | nil => intro acc hacc b hb; exact hacc b hb
  | cons s ss ih =>
    intro acc hacc b hb
    simp only [List.foldl_cons] at hb
    refine ih _ ?_ b hb
    intro x hx
    by_cases h10 : 10 < s.length
    · rw [if_pos h10] at hx
      by_cases h8 : 8 < (joinSpace ((pySplitWs s).take 15)).length
      · rw [if_pos h8] at hx
        rcases List.mem_append.mp hx with hx | hx
        · exact hacc x hx
        · simp only [List.mem_singleton] at hx
          subst hx
          exact bullet_text_content s h8
      · rw [if_neg h8] at hx
        exact hacc x hx
    · rw [if_neg h10] at hx
      exact hacc x hx

theorem genKeyFocus_spec (title : JVal) (b1v : List (List Char))
    (h : genKeyFocus title = .ok b1v) :
    b1v.length ≤ 1 ∧ ∀ b ∈ b1v, hasContent b := by
  unfold genKeyFocus at h
  by_cases ht : truthy title = true
  · rw [if_pos ht] at h
    split at h
    · exact absurd h (by simp)
    · rename_i n hlen
      by_cases h5 : 5 < n
      · rw [if_pos h5] at h
        split at h
        · rename_i t
          simp only [Except.ok.injEq] at h
          subst h
          refine ⟨by simp, ?_⟩
          intro b hb
          simp only [List.mem_singleton] at hb
          subst hb
          exact ⟨'K', by simp, by decide⟩
        · exact absurd h (by simp)
      · rw [if_neg h5] at h
        simp only [Except.ok.injEq] at h
        subst h
        exact ⟨by simp, by simp⟩
  · rw [if_neg ht] at h
    simp only [Except.ok.injEq] at h
    subst h
    exact ⟨by simp, by simp⟩

theorem genSentenceBullets_content (cstr : String) (needed : Nat)
    (b1v : List (List Char)) (h : ∀ b ∈ b1v, hasContent b) :
    ∀ b ∈ genSentenceBullets cstr needed b1v, hasContent b :=
  foldl_bullets_content _ b1v h

theorem fillFrom_length (bullets : List (List Char)) (src : List String)
    (needed : Nat) (h : needed ≤ src.length) :
    needed ≤ (fillFrom bullets src needed).length := by
  simp only [fillFrom, List.length_append, List.length_take, List.length_map]
  omega

theorem fillFrom_mem (bullets : List (List Char)) (src : List String)
    (needed : Nat) (b : List Char) (hb : b ∈ fillFrom bullets src needed) :
    b ∈ bullets ∨ b ∈ src.map String.data := by
  rcases List.mem_append.mp hb with hb | hb
  · exact Or.inl hb
  · exact Or.inr (List.mem_of_mem_take hb)

/-- `_generate_professional_bullets` returns exactly `needed_count` bullets
(for `needed_count ≤ 6`), every one with actual content. -/
theorem gen_bullets_spec (subject : String) (title content : JVal)
    (needed : Nat) (h6 : needed ≤ 6) (gbs : List (List Char))
    (h : generate_professional_bullets subject title content needed = .ok gbs) :
    gbs.length = needed ∧ ∀ b ∈ gbs, hasContent b := by
  unfold generate_professional_bullets at h
  split at h
  case h_2 => exact absurd h (by simp)
  case h_1 cstr =>
    split at h
    · exact absurd h (by simp)
    · rename_i b1v heq1
      simp only [Except.ok.injEq] at h
      subst h
      obtain ⟨_, hb1mem⟩ := genKeyFocus_spec _ _ heq1
      constructor
      · rw [List.length_take]
        have h2 : needed ≤ (fillFrom (fillFrom
            (genSentenceBullets cstr needed b1v) (subjectBullets subject)
            needed) genericBullets needed).length :=
          fillFrom_length _ _ _ (by rw [show genericBullets.length = 6 by rfl]; exact h6)
        omega
      · intro b hb
        have hb' := List.mem_of_mem_take hb
        rcases fillFrom_mem _ _ _ _ hb' with hb2 | hb2
        · rcases fillFrom_mem _ _ _ _ hb2 with hb3 | hb3
          · exact genSentenceBullets_content cstr needed b1v hb1mem b hb3
          · exact subjectBullets_content subject b hb3
        · exact genericBullets_content b hb2

theorem cleanBullets_content (bl : List JVal) :
    ∀ b ∈ cleanBullets bl, hasContent b := by
  intro b hb
  unfold cleanBullets at hb
  rcases List.mem_filterMap.mp hb with ⟨a, _, hfa⟩
  simp only [] at hfa
  split at hfa
  · rename_i hcond
    simp only [Option.some.injEq] at hfa
    subst hfa
    exact pyStrip_hasContent _ hcond.2.1
  · exact absurd hfa (by simp)

theorem neededGen_spec (style : GenStyle) (slide : PyDict)
    (b1 gbs : List (List Char)) (h : neededGen style slide b1 = .ok gbs) :
    (∀ b ∈ gbs, hasContent b) ∧
    (b1.length < 4 → (b1 ++ gbs).length = 4) ∧
    (4 ≤ b1.length → gbs = []) := by
  unfold neededGen at h
  by_cases hlt : b1.length < 4
  · rw [if_pos hlt] at h
    obtain ⟨hlen, hcont⟩ := gen_bullets_spec _ _ _ _ (by omega) _ h
    refine ⟨hcont, fun _ => ?_, fun h4 => absurd h4 (by omega)⟩
    rw [List.length_append, hlen]
    omega
  · rw [if_neg hlt] at h
    simp only [Except.ok.injEq] at h
    subst h
    exact ⟨by simp, fun hc => absurd hc hlt, fun _ => rfl⟩

theorem capBullets_bounds (b2 : List (List Char)) (h : 4 ≤ b2.length) :
    4 ≤ (capBullets b2).length ∧ (capBullets b2).length ≤ 6 := by
  unfold capBullets
  by_cases h6 : 6 < b2.length
  · rw [if_pos h6]
    rw [List.length_take]
    omega
  · rw [if_neg h6]
    omega

theorem capBullets_mem (b2 : List (List Char)) (b : List Char)
    (hb : b ∈ capBullets b2) : b ∈ b2 := by
  unfold capBullets at hb
  by_cases h6 : 6 < b2.length
  · rw [if_pos h6] at hb
    exact List.mem_of_mem_take hb
  · rwa [if_neg h6] at hb

theorem finishSlide_fields (style : GenStyle) (slide : PyDict)
    (b3 : List (List Char)) :
    dget (finishSlide style slide b3) "bullets"
      = some (.jlist (b3.map (fun b => .jstr ⟨b⟩))) ∧
    dget (finishSlide style slide b3) "bullet_count"
      = some (.jint (b3.length : Int)) := by
  unfold finishSlide
  constructor
  · rw [dget_dset_ne _ _ _ _ (by decide), dget_dset_ne _ _ _ _ (by decide),
      dget_dset_self]
  · rw [dget_dset_ne _ _ _ _ (by decide), dget_dset_self]

theorem extract_bullets_core (style : GenStyle) (slide out : PyDict)
    (k : String) (hk : slideKind slide = .ok k)
    (ht : k ≠ "title") (hi : k ≠ "intro")
    (h : extract_slide_bullets style slide = .ok out) :
    ∃ bs : List (List Char),
      dget out "bullets" = some (.jlist (bs.map (fun b => .jstr ⟨b⟩))) ∧
      dget out "bullet_count" = some (.jint (bs.length : Int)) ∧
      4 ≤ bs.length ∧ bs.length ≤ 6 ∧ ∀ b ∈ bs, hasContent b := by
  unfold slideKind at hk
  unfold extract_slide_bullets at h
  split at hk
  · rename_i ks heq
    simp only [Except.ok.injEq] at hk
    subst hk
    split at h
    · rename_i ks2 heq2
      rw [heq] at heq2
      injection heq2 with hks
      subst hks
      rw [if_neg (by push_neg; exact ⟨ht, hi⟩)] at h
      split at h
      · exact absurd h (by simp)
      · rename_i gbs heqg
        simp only [Except.ok.injEq] at h
        subst h
        obtain ⟨hgc, hglen, hgnil⟩ := neededGen_spec style slide _ gbs heqg
        have h4 : 4 ≤ (cleanBullets (slideBulletsRaw slide) ++ gbs).length := by
          by_cases hlt : (cleanBullets (slideBulletsRaw slide)).length < 4
          · rw [hglen hlt]
          · rw [hgnil (by omega)]
            simp only [List.append_nil]
            omega
        refine ⟨capBullets (cleanBullets (slideBulletsRaw slide) ++ gbs),
          (finishSlide_fields style slide _).1,
          (finishSlide_fields style slide _).2,
          (capBullets_bounds _ h4).1, (capBullets_bounds _ h4).2, ?_⟩
        intro b hb
        rcases List.mem_append.mp (capBullets_mem _ _ hb) with hb2 | hb2
        · exact cleanBullets_content _ b hb2
        · exact hgc b hb2
    · exact absurd h (by simp)
  · exact absurd hk (by simp)

/-- The C5 scenario's generator style: the default subject `general` with
its font configuration. -/
def c5style : GenStyle := ⟨"general", "Calibri", "Calibri", "Arial"⟩

/-- The C5 scenario's slide: a content slide arriving with bullets
`["", "only one point"]`. -/
def c5slide : PyDict :=
  [("type", .jstr "content"), ("bullets", .jlist [.jstr "", .jstr "only one point"])]

/-- The C5 scenario's output: the original non-empty bullet plus the first
three generic professional bullets, `bullet_count` 4, and the fonts. -/
def c5expected : PyDict :=
  [("type", .jstr "content"),
   ("bullets", .jlist
     [.jstr "only one point",
      .jstr "Relevant application to real-world scenarios",
      .jstr "Professional implementation considerations",
      .jstr "Performance and efficiency metrics"]),
   ("bullet_count", .jint 4),
   ("fonts", .jdict
     [("title_font", .jstr "Calibri"),
      ("heading_font", .jstr "Calibri"),
      ("content_font", .jstr "Arial")])]

/-- C5: whenever `_extract_slide_bullets` returns on a slide whose kind is
not title/intro, the returned slide carries a bullets list of between 4 and
6 entries, each a string that is non-empty after trimming, with
`bullet_count` equal to the list's length; and the scenario slide with
bullets `["", "only one point"]` yields exactly 4 bullets — the original
non-empty one plus the first 3 synthesized generic bullets. -/
theorem C5_extract_bullet_bounds :
    (∀ (style : GenStyle) (slide out : PyDict) (k : String),
        slideKind slide = .ok k → k ≠ "title" → k ≠ "intro" →
        extract_slide_bullets style slide = .ok out →
        ∃ bs : List (List Char),
          dget out "bullets" = some (.jlist (bs.map (fun b => .jstr ⟨b⟩))) ∧
          dget out "bullet_count" = some (.jint (bs.length : Int)) ∧
          4 ≤ bs.length ∧ bs.length ≤ 6 ∧ ∀ b ∈ bs, hasContent b) ∧
    extract_slide_bullets c5style c5slide = .ok c5expected :=
  ⟨fun style slide out k hk ht hi h =>
    extract_bullets_core style slide out k hk ht hi h, by decide⟩

/-- C5 witness: the general bound of `C5_extract_bullet_bounds` applied at
the concrete scenario slide. -/
theorem C5_extract_bullet_bounds_witness :
    ∃ bs : List (List Char),
      dget c5expected "bullets" = some (.jlist (bs.map (fun b => .jstr ⟨b⟩))) ∧
      dget c5expected "bullet_count" = some (.jint (bs.length : Int)) ∧
      4 ≤ bs.length ∧ bs.length ≤ 6 ∧ ∀ b ∈ bs, hasContent b :=
  C5_extract_bullet_bounds.1 c5style c5slide c5expected "content"
    (by decide) (by decide) (by decide) (by decide)

/-! ## `GroqPresentationGenerator.generate` control flow (claims C9, C10) -/

/-- The generator fields that `generate`'s validation layer and dispatcher
read.  `num_slides` is the constructor's optional integer; the string-typed
fields are arbitrary Python values, as nothing before validation constrains
them. -/
structure GenConfig where
  topic : JVal
  raw_content : JVal
  target_audience : JVal
  tone : JVal
  num_slides : Option Int
  enable_chunking : Bool

/-- The validation test `not field or not isinstance(field, str)` passes
exactly for non-empty strings. -/
def isNonEmptyStr : JVal → Bool
  | .jstr s => decide (s ≠ "")
  | _ => false

/-- `self.tone in ['professional', 'casual', 'academic', 'persuasive']`. -/
def toneOk (v : JVal) : Bool :=
  v == .jstr "professional" || v == .jstr "casual" ||
  v == .jstr "academic" || v == .jstr "persuasive"

/-- The required-field checks of `generate`, in source order. -/
def validateFields (g : GenConfig) : Except String Unit :=
  if isNonEmptyStr g.topic = false then
    .error "topic must be a non-empty string"
  else if isNonEmptyStr g.raw_content = false then
    .error "raw_content must be a non-empty string"
  else if isNonEmptyStr g.target_audience = false then
    .error "target_audience must be a non-empty string"
  else if toneOk g.tone = false then
    .error "tone must be one of professional, casual, academic, persuasive"
  else .ok ()

/-- The validation layer of `generate`: the `num_slides` range check runs
first (when `num_slides` is present), then the field checks. -/
def validateGen (g : GenConfig) : Except String Unit :=
  match g.num_slides with
  | some n =>
    if n < 3 ∨ 100 < n then
      .error ("num_slides must be between 3 and 100, got " ++ toString n)
    else validateFields g
  | none => validateFields g

/-- Python truthiness of the optional slide count (`not self.num_slides`). -/
def numFalsy : Option Int → Bool
  | none => true
  | some n => decide (n = 0)

/-- The observable outcome of the single-request attempt: the whole
`try` body of `_generate_single` (API call, JSON extraction, repair,
parse, in-flow fallback) either returns a document or raises an exception
with some message.  Which one happens depends on the external API, so it
is the oracle of the run. -/
inductive SingleOutcome where
  | doc
  | exn (msg : String)

/-- How a run of `generate` ended, recording which path produced it:
a validation `ValueError`, the single-request flow, an invocation of
`_generate_chunked`, or a propagated exception. -/
inductive GenResult where
  | invalidInput (msg : String)
  | singleDoc
  | chunkedDoc
  | raised (msg : String)

/-- The substring test of the except handler (`"..." in error_str`). -/
def containsSubstr (needle hay : List Char) : Bool :=
  (List.range (hay.length + 1)).any (fun i => needle.isPrefixOf (hay.drop i))

/-- The token-limit markers the except handler of `_generate_single` looks
for in the exception text. -/
def containsMarker (msg : List Char) : Bool :=
  containsSubstr "rate_limit_exceeded".data msg ||
  containsSubstr "tokens per minute".data msg ||
  containsSubstr "Request too large".data msg

/-- `_generate_single`: a successful try body is the single-flow document;
an exception carrying a token-limit marker auto-enables chunking and
invokes `_generate_chunked` when chunking was off, and raises otherwise;
any other exception propagates (re-raised as-is for a `ValueError`, wrapped
in `Groq API call failed:` otherwise — both modelled as `.raised`). -/
def generate_single (g : GenConfig) (o : SingleOutcome) : GenResult :=
  match o with
  | .doc => .singleDoc
  | .exn msg =>
    if containsMarker msg.data then
      if g.enable_chunking = false then .chunkedDoc
      else .raised ("Even with chunking, token limit exceeded: " ++ msg)
    else .raised msg

/-- The dispatcher of `generate`:
`if self.enable_chunking and not self.num_slides` chooses the chunked
path, otherwise the single-request flow. -/
def dispatch (g : GenConfig) (o : SingleOutcome) : GenResult :=
  if g.enable_chunking && numFalsy g.num_slides then .chunkedDoc
  else generate_single g o

/-- `GroqPresentationGenerator.generate`: validate (any `ValueError` is
wrapped in `Input validation failed:` and raised before any client
interaction), then dispatch. -/
def runGenerate (g : GenConfig) (o : SingleOutcome) : GenResult :=
  match validateGen g with
  | .error e => .invalidInput ("Input validation failed: " ++ e)
  | .ok _ => dispatch g o

/-- Recogniser for the validation-error outcome. -/
def isInvalidInput : GenResult → Bool
  | .invalidInput _ => true
  | _ => false

/-- Recogniser for the error case of an `Except`. -/
def exceptErr {α : Type} : Except String α → Bool
  | .error _ => true
  | .ok _ => false

/-- The claim-side validity predicate of C10, written from the claim's own
words: invalid exactly when a required field is empty or non-string, the
tone is outside the closed set, or `num_slides` is outside `[3, 100]`. -/
def numBad : Option Int → Bool
  | some n => decide (n < 3) || decide (100 < n)
  | none => false

/-- The claim-side invalidity predicate of C10 (see `numBad`). -/
def invalidPerClaim (g : GenConfig) : Bool :=
  numBad g.num_slides || !isNonEmptyStr g.topic || !isNonEmptyStr g.raw_content ||
  !isNonEmptyStr g.target_audience || !toneOk g.tone

theorem validateFields_err (g : GenConfig) :
    exceptErr (validateFields g) =
      (!isNonEmptyStr g.topic || !isNonEmptyStr g.raw_content ||
       !isNonEmptyStr g.target_audience || !toneOk g.tone) := by
  unfold validateFields
  cases isNonEmptyStr g.topic <;> cases isNonEmptyStr g.raw_content <;>
    cases isNonEmptyStr g.target_audience <;> cases toneOk g.tone <;> rfl

theorem validateGen_err (g : GenConfig) :
    exceptErr (validateGen g) = invalidPerClaim g := by
  unfold validateGen invalidPerClaim numBad
  split
  · rename_i n heq
    by_cases hr : n < 3 ∨ 100 < n
    · rw [if_pos hr]
      have hm : (decide (n < 3) || decide (100 < n)) = true := by
        rcases hr with h | h <;> simp [h]
      rw [hm]
      rfl
    · rw [if_neg hr]
      push_neg at hr
      have h3 : decide (n < 3) = false := by
        simp only [decide_eq_false_iff_not]
        omega
      have h4 : decide (100 < n) = false := by
        simp only [decide_eq_false_iff_not]
        omega
      rw [h3, h4, validateFields_err g]
      rfl
  · rw [validateFields_err g]
    rfl

theorem generate_single_not_invalid (g : GenConfig) (o : SingleOutcome) :
    isInvalidInput (generate_single g o) = false := by
  unfold generate_single
  split
  · rfl
  · split
    · split
      · rfl
      · rfl
    · rfl

theorem dispatch_not_invalid (g : GenConfig) (o : SingleOutcome) :
    isInvalidInput (dispatch g o) = false := by
  unfold dispatch
  split
  · rfl
  · exact generate_single_not_invalid g o

theorem runGenerate_invalid (g : GenConfig) (o : SingleOutcome) :
    isInvalidInput (runGenerate g o) = invalidPerClaim g := by
  unfold runGenerate
  cases hv : validateGen g with
  | error e =>
    have h := validateGen_err g
    rw [hv] at h
    exact h
  | ok u =>
    have h := validateGen_err g
    rw [hv] at h
    rw [dispatch_not_invalid g o]
    exact h

theorem validateGen_ok_range (g : GenConfig) (n : Int)
    (hn : g.num_slides = some n) (u : Unit)
    (hv : validateGen g = .ok u) : 3 ≤ n ∧ n ≤ 100 := by
  unfold validateGen at hv
  rw [hn] at hv
  split at hv
  · rename_i n2 heq2
    injection heq2 with h2
    subst h2
    by_cases hr : n < 3 ∨ 100 < n
    · rw [if_pos hr] at hv
      exact absurd hv (by simp)
    · push_neg at hr
      exact hr
  · rename_i heq2
    exact absurd heq2 (by simp)

/-- A C9 configuration: valid fields, an explicit in-range slide count, and
chunking disabled. -/
def c9cfg : GenConfig :=
  ⟨.jstr "T", .jstr "Some content", .jstr "Everyone", .jstr "professional",
   some 5, false⟩

/-- C9 (counterexample): with an explicit `num_slides` of 5, a token-limit
error from the single request still invokes `_generate_chunked` — the
except handler auto-enables chunking regardless of `num_slides`, so the
chunked path is not always bypassed. -/
theorem C9_rate_limit_recovery_uses_chunking :
    c9cfg.num_slides = some 5 ∧
    runGenerate c9cfg
      (.exn "rate_limit_exceeded: limit 6000 tokens per minute") =
      .chunkedDoc :=
  ⟨rfl, rfl⟩

/-- C9 (amended): with an explicit `num_slides`, the chunked path is never
invoked as long as the single attempt either succeeds or fails without a
token-limit marker in its message (or chunking was already enabled, in
which case the handler raises instead); the validated dispatcher itself
always chooses the single flow when `num_slides` is set. -/
theorem C9_single_flow_with_num_slides (g : GenConfig) (n : Int)
    (o : SingleOutcome) (hn : g.num_slides = some n)
    (ho : ∀ msg, o = .exn msg →
      containsMarker msg.data = false ∨ g.enable_chunking = true) :
    runGenerate g o ≠ .chunkedDoc := by
  unfold runGenerate
  cases hv : validateGen g with
  | error e => simp
  | ok u =>
    have hrange := validateGen_ok_range g n hn u hv
    show dispatch g o ≠ GenResult.chunkedDoc
    have hfalsy : numFalsy g.num_slides = false := by
      rw [hn]
      simp only [numFalsy, decide_eq_false_iff_not]
      omega
    unfold dispatch
    rw [hfalsy, Bool.and_false, if_neg (by simp)]
    cases o with
    | doc => simp [generate_single]
    | exn msg =>
      simp only [generate_single]
      rcases ho msg rfl with hm | hc
      · rw [hm, if_neg (by simp)]
        simp
      · by_cases hm : containsMarker msg.data = true
        · rw [hm, if_pos rfl, hc, if_neg (by simp)]
          simp
        · have hm2 : containsMarker msg.data = false := by
            revert hm
            cases containsMarker msg.data <;> simp
          rw [hm2, if_neg (by simp)]
          simp

/-- C9 witness: the amended theorem applied at `c9cfg` with a successful
single attempt. -/
theorem C9_single_flow_witness :
    runGenerate c9cfg SingleOutcome.doc ≠ GenResult.chunkedDoc :=
  C9_single_flow_with_num_slides c9cfg 5 SingleOutcome.doc rfl
    (fun _ h => SingleOutcome.noConfusion h)

/-- C10: `generate` raises the input-validation `ValueError` (and produces
no document) exactly when the claim's condition holds — some required field
is empty or non-string, the tone is outside the closed set, or `num_slides`
is outside `[3, 100]` — and whether it does so is independent of the
generation outcome, so the error is raised before any client interaction
and without retry; in particular an empty `raw_content` always trips it. -/
theorem C10_validation_gate (g : GenConfig) (o : SingleOutcome) :
    isInvalidInput (runGenerate g o) = invalidPerClaim g ∧
    (∀ o2 : SingleOutcome,
      isInvalidInput (runGenerate g o) = isInvalidInput (runGenerate g o2)) ∧
    (g.raw_content = .jstr "" → invalidPerClaim g = true) := by
  refine ⟨runGenerate_invalid g o,
    fun o2 => by rw [runGenerate_invalid g o, runGenerate_invalid g o2],
    fun hrc => ?_⟩
  have h0 : isNonEmptyStr g.raw_content = false := by
    rw [hrc]
    rfl
  unfold invalidPerClaim
  rw [h0]
  simp

/-- A C10 configuration with empty `raw_content` and every other field
valid. -/
def c10cfg : GenConfig :=
  ⟨.jstr "T", .jstr "", .jstr "Everyone", .jstr "professional", none, false⟩

/-- C10 witness: the gate theorem applied at `c10cfg` — the run is rejected
as invalid input. -/
theorem C10_validation_gate_witness :
    isInvalidInput (runGenerate c10cfg SingleOutcome.doc)
        = invalidPerClaim c10cfg ∧
    invalidPerClaim c10cfg = true :=
  ⟨(C10_validation_gate c10cfg SingleOutcome.doc).1,
   (C10_validation_gate c10cfg SingleOutcome.doc).2.2 rfl⟩
